import Mathlib

/-!
# neversorrow: error model, request context and request dispatch

A shallow embedding of the Go package `neversorrow` (files `errors/error.go`,
`context.go`, `main.go`) together with the properties proved about it.

Go strings are Lean strings, that is, texts that are valid UTF-8.  Go maps are
association lists with unique keys (`GoMap`).  The response sink, the request
and the router belong to libraries outside the package (`net/http` and
`httprouter`); they are represented by state models whose doc comments say
what they cover.  A Go function that can panic returns, next to the state it
leaves, the panic value if there is one.
-/

set_option autoImplicit false

namespace Neversorrow

/-! ## Go library helpers used by the package -/

namespace strings

/-- Go `strings.Split(s, sep)` for a one-character separator: the pieces of `s`
between occurrences of `sep`; a string without `sep` gives one piece. -/
def Split (sep : Char) : List Char → List (List Char)
  | [] => [[]]
  | c :: cs =>
    if c = sep then [] :: Split sep cs
    else
      match Split sep cs with
      | [] => [[c]]
      | p :: ps => (c :: p) :: ps

/-- Go `strings.Join(elems, sep)` for a one-character separator. -/
def Join (sep : Char) : List (List Char) → List Char
  | [] => []
  | [p] => p
  | p :: q :: ps => p ++ sep :: Join sep (q :: ps)

/-- Go `strings.Contains(s, sub)` for a one-character `sub`. -/
def Contains (s : List Char) (c : Char) : Bool := s.contains c

end strings

/-! ## errors/error.go -/

namespace errors

/-- The fields of a `runtime.Frame` read by `GetStacktrace`. -/
structure Frame where
  Function : String
  File : String
  Line : Nat
  deriving DecidableEq, Repr

/-- The value of `function` computed for one frame in `GetStacktrace`
(lines 63-72): the name is split at "/", and when there are more than two
parts and the first contains a ".", the parts from index 2 on are joined
again. -/
def functionName (fnName : String) : String :=
  let parts := strings.Split '/' fnName.toList
  if parts.length > 2 ∧ strings.Contains (parts.headD []) '.' = true then
    String.mk (strings.Join '/' (parts.drop 2))
  else fnName

/-- The entry appended for one frame: `fmt.Sprintf("%s(%s:%d)", function, file, line)`. -/
def formatFrame (frame : Frame) : String :=
  functionName frame.Function ++ "(" ++ frame.File ++ ":" ++ toString frame.Line ++ ")"

/-- The zero `runtime.Frame`. -/
def Frame.zero : Frame := { Function := "", File := "", Line := 0 }

/-- Go `(*runtime.Frames).Next` on the frames still to be yielded: the next
frame, the result `more` (whether a further call will yield a frame), and the
frames left.  With no frame left it yields the zero frame and `false`. -/
def Next : List Frame → (Frame × Bool) × List Frame
  | [] => ((Frame.zero, false), [])
  | frame :: rest => ((frame, !rest.isEmpty), rest)

/-- The `for` loop of `GetStacktrace` (lines 56-76) on the frames still to be
yielded and the slice built so far: each turn calls `frames.Next()`, leaves
the loop when its second result (`found`) is false, without appending the
frame returned with it, and otherwise appends the entry of the frame. -/
def collect : List Frame → List String → List String
  | [], stacktrace => stacktrace
  | frame :: rest, stacktrace =>
    match (Next (frame :: rest)).1.2 with
    | false => stacktrace
    | true => collect rest (stacktrace ++ [formatFrame (Next (frame :: rest)).1.1])

/-- Go `GetStacktrace` (lines 50-80).  `callers` is the call stack seen from the
capture point after the three skipped frames, innermost first, one frame per
program counter; `runtime.Callers` stores at most 10 program counters in
`pcStacktrace`, and `runtime.CallersFrames` iterates over their frames. -/
def GetStacktrace (callers : List Frame) : List String :=
  if (callers.take 10).length > 0 then collect (callers.take 10) [] else []

/-- Go `internalError`: the only implementation of the `errors.Error` interface
in the package. -/
structure internalError where
  cause : String
  code : Int
  stacktrace : List String
  deriving DecidableEq, Repr

/-- Go `(*internalError).StatusCode`. -/
def internalError.StatusCode (err : internalError) : Int := err.code

/-- Go `(*internalError).Error`. -/
def internalError.Error (err : internalError) : String := err.cause

/-- Go `(*internalError).Stacktrace`. -/
def internalError.Stacktrace (err : internalError) : List String := err.stacktrace

/-- Go `http.StatusInternalServerError`. -/
def StatusInternalServerError : Int := 500

/-- Go `errors.New(cause)`; `callers` is the call stack at the construction site. -/
def New (cause : String) (callers : List Frame) : internalError :=
  { cause := cause, code := StatusInternalServerError, stacktrace := GetStacktrace callers }

/-- Go `errors.NewWithCode(cause, code)`; `callers` is the call stack at the
construction site. -/
def NewWithCode (cause : String) (code : Int) (callers : List Frame) : internalError :=
  { cause := cause, code := code, stacktrace := GetStacktrace callers }

end errors

/-- A Go value of interface type `error` as `ctx.Error` sees it: either it
satisfies `errors.Error` (the three methods of `internalError`), or it is any
other error, of which only the text returned by `Error()` is read. -/
inductive GoError where
  | app (e : errors.internalError)
  | plain (msg : String)
  deriving DecidableEq, Repr

/-- The method `Error()` of a Go error. -/
def GoError.Error : GoError → String
  | .app e => e.Error
  | .plain msg => msg

/-! ## Go maps -/

/-- A Go `map[string]V`: a finite table of key/value entries.  `set` replaces
the entry of a key that is already present, so a table built from `empty` by
`set` never holds two entries for one key. -/
structure GoMap (V : Type) where
  entries : List (String × V)
  deriving DecidableEq, Repr

namespace GoMap

variable {V : Type}

/-- Go `make(map[string]V)`. -/
def empty : GoMap V := ⟨[]⟩

/-- The assignment `m[k] = v` on the entry list. -/
def setEntries (k : String) (v : V) : List (String × V) → List (String × V)
  | [] => [(k, v)]
  | (k1, v1) :: rest => if k1 = k then (k, v) :: rest else (k1, v1) :: setEntries k v rest

/-- The assignment `m[k] = v`. -/
def set (m : GoMap V) (k : String) (v : V) : GoMap V := ⟨setEntries k v m.entries⟩

/-- The lookup on the entry list. -/
def getEntries (k : String) : List (String × V) → Option V
  | [] => none
  | (k1, v1) :: rest => if k1 = k then some v1 else getEntries k rest

/-- The lookup `v, ok := m[k]`. -/
def get (m : GoMap V) (k : String) : Option V := getEntries k m.entries

/-- The keys present in the map. -/
def keys (m : GoMap V) : List String := m.entries.map Prod.fst

end GoMap

/-! ## The response sink and JSON bodies -/

/-- A recovered panic value `r`, not nil; `text` is its rendering by `fmt` with
the verb `%+v`. -/
structure PanicValue where
  text : String
  deriving DecidableEq, Repr

/-- The JSON values that occur in the bodies written by the package. -/
inductive JsonValue where
  | str (s : String)
  | bool (b : Bool)
  | strs (xs : List String)
  deriving DecidableEq, Repr

/-- A JSON object as written by `json.Encoder.Encode`: its members in order. -/
abbrev Document := List (String × JsonValue)

/-- The member of a JSON object with the given key, if present. -/
def Document.member (d : Document) (key : String) : Option JsonValue :=
  (d.find? (fun kv => kv.1 = key)).map Prod.snd

/-- One `Write` to the response: the encoding of a JSON object, or plain text
(written by library code such as `http.Error`). -/
inductive Body where
  | json (d : Document)
  | text (s : String)
  deriving DecidableEq, Repr

/-- State of the `http.ResponseWriter` a net/http server hands to `ServeHTTP`.
`header` is the map returned by `Header()`, with keys kept as written and
compared without regard to case; `status` is the status code of the response
(`none` while the response has not been started); `sent` is the header set of
the response, fixed when the response is started; `body` lists the writes the
writer has taken; `informational` lists the 1xx responses sent ahead of the
response, each with the header map of that moment.  Not represented: headers
the server adds on its own, a `Content-Length` declared in the header map
(which the server enforces on writes), and hijacking of the connection. -/
structure ResponseWriter where
  header : List (String × String)
  status : Option Int
  sent : List (String × String)
  body : List Body
  informational : List (Int × List (String × String))
  deriving DecidableEq, Repr

namespace ResponseWriter

/-- A response on which nothing has been set or written. -/
def fresh : ResponseWriter :=
  { header := [], status := none, sent := [], body := [], informational := [] }

/-- Equality of header keys: they are canonicalised by `net/http`, so case does
not count. -/
def sameKey (a b : String) : Bool :=
  a.toList.map Char.toLower == b.toList.map Char.toLower

/-- The call `w.Header().Add(key, value)`. -/
def HeaderAdd (w : ResponseWriter) (key value : String) : ResponseWriter :=
  { w with header := w.header ++ [(key, value)] }

/-- The call `w.Header().Del(key)`. -/
def HeaderDel (w : ResponseWriter) (key : String) : ResponseWriter :=
  { w with header := w.header.filter (fun kv => !sameKey kv.1 key) }

/-- The call `w.Header().Set(key, value)`. -/
def HeaderSet (w : ResponseWriter) (key value : String) : ResponseWriter :=
  { w with header := w.header.filter (fun kv => !sameKey kv.1 key) ++ [(key, value)] }

/-- The call `w.WriteHeader(statusCode)` of the server's response writer, with
the panic it raises, if any.  On a started response the call is ignored.
Otherwise a code outside 100..999 makes it panic with the text
"invalid WriteHeader code" and the code, nothing being written; a 1xx code
other than 101 sends an informational response and leaves the response
unstarted; any other code starts the response, fixing the status and the
header set, so that later changes of the header map do not reach it. -/
def WriteHeader (w : ResponseWriter) (statusCode : Int) : ResponseWriter × Option PanicValue :=
  match w.status with
  | some _ => (w, none)
  | none =>
    if statusCode < 100 ∨ statusCode > 999 then
      (w, some { text := "invalid WriteHeader code " ++ toString statusCode })
    else if statusCode ≤ 199 ∧ statusCode ≠ 101 then
      ({ w with informational := w.informational ++ [(statusCode, w.header)] }, none)
    else
      ({ w with status := some statusCode, sent := w.header }, none)

/-- Go `bodyAllowedForStatus` of `net/http`: a response with a 1xx status, 204
or 304 carries no body. -/
def bodyAllowedForStatus (status : Int) : Bool :=
  !(decide (100 ≤ status ∧ status ≤ 199) || decide (status = 204) || decide (status = 304))

/-- The call `w.Write(data)` with non-empty `data`: if the response has not been
started, it is started first as by `WriteHeader(http.StatusOK)`; the data is
taken when the status of the response allows a body, and refused otherwise
(the call then returns `http.ErrBodyNotAllowed`, which the callers in the
package do not look at). -/
def Write (w : ResponseWriter) (data : Body) : ResponseWriter :=
  let w1 := (w.WriteHeader 200).1
  if bodyAllowedForStatus (w1.status.getD 200) = true then
    { w1 with body := w1.body ++ [data] }
  else w1

end ResponseWriter

/-- Go `http.Error(w, error, code)`: plain-text headers, the status, and the
text followed by a newline. -/
def httpError (w : ResponseWriter) (error : String) (code : Int) :
    ResponseWriter × Option PanicValue :=
  let w1 := w.HeaderDel "Content-Length"
  let w2 := w1.HeaderSet "Content-Type" "text/plain; charset=utf-8"
  let w3 := w2.HeaderSet "X-Content-Type-Options" "nosniff"
  match w3.WriteHeader code with
  | (w4, some r) => (w4, some r)
  | (w4, none) => (w4.Write (Body.text (error ++ "\n")), none)

/-- Go `http.StatusText` for the codes of redirects. -/
def StatusText (code : Int) : String :=
  if code = 301 then "Moved Permanently"
  else if code = 307 then "Temporary Redirect"
  else if code = 308 then "Permanent Redirect"
  else ""

/-- The escaping of `&`, `<`, `>`, the double and the single quote done by
`http.Redirect` on the link it writes. -/
def htmlEscape (s : String) : String :=
  String.join (s.toList.map (fun c =>
    if c = '&' then "&amp;"
    else if c = '<' then "&lt;"
    else if c = '>' then "&gt;"
    else if c = Char.ofNat 34 then "&#34;"
    else if c = Char.ofNat 39 then "&#39;"
    else String.singleton c))

/-- Go `http.Redirect(w, req, url, code)` for an absolute ASCII `url`: the
`Location` header, the status, and for a GET request without a content type
set a short HTML body. -/
def httpRedirect (w : ResponseWriter) (method url : String) (code : Int) :
    ResponseWriter × Option PanicValue :=
  let hadCT := w.header.any (fun kv => ResponseWriter.sameKey kv.1 "Content-Type")
  let w1 := w.HeaderSet "Location" url
  let w2 :=
    if hadCT = false ∧ (method = "GET" ∨ method = "HEAD") then
      w1.HeaderSet "Content-Type" "text/html; charset=utf-8"
    else w1
  match w2.WriteHeader code with
  | (w3, some r) => (w3, some r)
  | (w3, none) =>
    if hadCT = false ∧ method = "GET" then
      (w3.Write (Body.text ("<a href=" ++ String.singleton (Char.ofNat 34) ++ htmlEscape url ++
        String.singleton (Char.ofNat 34) ++ ">" ++ StatusText code ++ "</a>.\n\n")), none)
    else (w3, none)

/-- The value encoded by `ctx.Error` (context.go lines 74-82): members `error`
and `message`, and `stacktrace` tagged `omitempty`, left out when the slice is
nil or empty. -/
def encodeErrorBody (Error Message : String) (Stacktrace : List String) : Document :=
  [("error", JsonValue.str Error), ("message", JsonValue.str Message)] ++
    (if Stacktrace = [] then [] else [("stacktrace", JsonValue.strs Stacktrace)])

/-- The value encoded for `GET /version` (main.go lines 138-146). -/
def encodeVersionBody (Version BuildTime : String) (ShowStacktrace : Bool) : Document :=
  [("version", JsonValue.str Version), ("BuildTime", JsonValue.str BuildTime),
   ("showStacktrace", JsonValue.bool ShowStacktrace)]

/-! ## context.go -/

/-- Modelled from the spec: the `Config` type, whose declaration is not among
the source files; the fields are those read in `main.go` and `context.go`. -/
structure Config where
  Address : String
  Version : String
  BuildTime : String
  ShowStacktrace : String
  deriving DecidableEq, Repr

/-- The parts of an `*http.Request` read by the package. -/
structure Request where
  Method : String
  Path : String
  deriving DecidableEq, Repr

/-- A `*requestContext`.  `ptr` identifies the allocated object: its `params`
map is the entry `ptr` of `ReqState.params`.  The field `w` is the one writer
of the request, `ReqState.w`.  `app` stands for the owning application, of
which the context reads only `Config()`. -/
structure requestContext where
  ptr : Nat
  app : Config
  req : Request
  deriving DecidableEq, Repr

/-- The mutable state touched while one request is handled: the response
writer and the `params` maps of the contexts allocated so far. -/
structure ReqState where
  w : ResponseWriter
  params : List (GoMap String)
  deriving DecidableEq, Repr

/-- A request after `req.WithContext(...)`: `value` is what
`req.Context().Value(RequestContextKey).(Context)` yields. -/
structure RequestWithContext where
  Method : String
  Path : String
  value : Option requestContext

/-- Go `req.WithContext(context.WithValue(req.Context(), RequestContextKey, ctx))`. -/
def Request.WithContext (req : Request) (ctx : requestContext) : RequestWithContext :=
  { Method := req.Method, Path := req.Path, value := some ctx }

/-- The request without its context value. -/
def RequestWithContext.request (req : RequestWithContext) : Request :=
  { Method := req.Method, Path := req.Path }

/-- Go `newContext(app, w, req)`: allocates a context with an empty `params` map. -/
def newContext (app : Config) (req : Request) (s : ReqState) : requestContext × ReqState :=
  ({ ptr := s.params.length, app := app, req := req },
   { s with params := s.params ++ [GoMap.empty] })

namespace requestContext

/-- Go `ctx.Params()`: the current content of the context's map. -/
def Params (ctx : requestContext) (s : ReqState) : GoMap String :=
  s.params.getD ctx.ptr GoMap.empty

/-- The assignment `ctx.Params()[key] = value`. -/
def setParam (ctx : requestContext) (key value : String) (s : ReqState) : ReqState :=
  { s with params := s.params.set ctx.ptr ((ctx.Params s).set key value) }

/-- The value of `statusCode` after the type switch of `Error` (lines 60-70):
`err.StatusCode()` in the case `errors.Error`, the initial
`http.StatusInternalServerError` otherwise. -/
def errorStatus : GoError → Int
  | .app e => e.StatusCode
  | .plain _ => errors.StatusInternalServerError

/-- The value of `stacktrace` after the type switch of `Error` (lines 61-70):
`err.Stacktrace()` in the case `errors.Error` when `ShowStacktrace` is empty,
the initial nil slice otherwise. -/
def errorStacktrace (ctx : requestContext) : GoError → List String
  | .app e => if ctx.app.ShowStacktrace = "" then e.Stacktrace else []
  | .plain _ => []

/-- Go `(*requestContext).Error` (context.go lines 59-83), with the panic that
leaves it when `WriteHeader` at line 72 panics; the lines after it are then not
reached. -/
def Error (ctx : requestContext) (err : GoError) (s : ReqState) :
    ReqState × Option PanicValue :=
  let statusCode : Int := errorStatus err
  let stacktrace : List String := errorStacktrace ctx err
  match s.w.WriteHeader statusCode with
  | (w1, some r) => ({ s with w := w1 }, some r)
  | (w1, none) =>
    let w2 := w1.HeaderAdd "content-type" "application/json"
    ({ s with w := w2.Write (Body.json (encodeErrorBody "error" err.Error stacktrace)) }, none)

/-- Go `(*requestContext).ResponseWithJSON` (context.go lines 85-88); `v` is the
JSON object the argument encodes to. -/
def ResponseWithJSON (ctx : requestContext) (v : Document) (s : ReqState) : ReqState :=
  let _ := ctx
  let w1 := s.w.HeaderAdd "content-type" "application/json"
  { s with w := w1.Write (Body.json v) }

end requestContext

/-! ## main.go -/

/-- Go `OnServeHTTPHandler`, a `func(Context)`: what running the handler on a
context does to the request state, and the value it panicked with, if it did
(the state is then the one reached when the panic was raised). -/
abbrev OnServeHTTPHandler := requestContext → ReqState → ReqState × Option PanicValue

/-- Go `OnHandler`, a `func(App)`: its effect on the world outside the request
path, whatever that world is. -/
abbrev OnHandler (World : Type) := World → World

/-- One `httprouter.Param`. -/
structure Param where
  Key : String
  Value : String
  deriving DecidableEq, Repr

/-- One registration made through `router.Handle(method, route, ...)` in
`AddRoute`, with the handler captured by the registered closure. -/
structure Route where
  method : String
  route : String
  handler : OnServeHTTPHandler

/-- The call stacks, as `GetStacktrace` takes them, at the two places of the
request path where an error is constructed: the deferred function of
`ServeHTTP` and the handler returned by `NotFound`. -/
structure CallStacks where
  recovered : List errors.Frame
  notFound : List errors.Frame

/-- The `app` struct.  `routes` is the registration table of the router;
the `http.Server` is left out.  The router field `NotFound` is set once in
`New` to `app.NotFound()` and is represented by `NotFound` below. -/
structure app (World : Type) where
  config : Config
  routes : List Route
  eventHandler : GoMap (OnHandler World)
  serveHTTPHandler : Option OnServeHTTPHandler

/-- Go `http.StatusNotFound`. -/
def StatusNotFound : Int := 404

/-- Go `http.StatusMethodNotAllowed`. -/
def StatusMethodNotAllowed : Int := 405

/-- Go `http.MethodGet`. -/
def MethodGet : String := "GET"

/-! ### The path router

The router is the third-party `httprouter`, created by `httprouter.New()` in
`New` with its defaults (redirects, replies to OPTIONS and 405 replies switched
on); the package sets only its `NotFound`.  The model covers patterns as the
router accepts them at registration: static text, parameters `:name` and a
final catch-all `/*name`, without conflicts between the patterns of one method.
-/

namespace router

/-- The catch-all `/*name` against the rest of a path: `pattern` is the text
after the "/", so `*name`; the rest of the path must start with "/" and is the
value, "/" included. -/
def catchAll (pattern path : List Char) : Option (List Param) :=
  match path with
  | d :: _ =>
    if d = '/' then some [{ Key := String.mk (pattern.drop 1), Value := String.mk path }]
    else none
  | [] => none

/-- Matching of a pattern against a path, both from the current position on.
The flag is true while the position in the pattern is inside the name of a
parameter whose value has already been taken from the path.  A parameter takes
the text up to the next "/" (it needs some text to be left); a catch-all
`/*name` takes the rest of the path from the "/" on; any other character must
be the next character of the path. -/
def matchChars : Bool → List Char → List Char → Option (List Param)
  | _, [], path => if path = [] then some [] else none
  | true, c :: pattern, path =>
    if c = '/' then
      if pattern.head? = some '*' then catchAll pattern path
      else
        match path with
        | d :: rest => if d = '/' then matchChars false pattern rest else none
        | [] => none
    else matchChars true pattern path
  | false, c :: pattern, path =>
    if c = ':' then
      if path = [] then none
      else
        (matchChars true pattern (path.dropWhile (fun d => d ≠ '/'))).map (fun ps =>
          { Key := String.mk (pattern.takeWhile (fun d => d ≠ '/')),
            Value := String.mk (path.takeWhile (fun d => d ≠ '/')) } :: ps)
    else if c = '/' ∧ pattern.head? = some '*' then catchAll pattern path
    else
      match path with
      | d :: rest => if c = d then matchChars false pattern rest else none
      | [] => none

/-- The bindings of a route pattern for a path, if the path matches. -/
def matchRoute (route path : String) : Option (List Param) :=
  matchChars false route.toList path.toList

/-- The result of the router's lookup in the tree of a method: the
registration with that method whose pattern matches the path, with the
bindings. -/
def lookup : List Route → String → String → Option (Route × List Param)
  | [], _, _ => none
  | r :: rs, method, path =>
    if r.method = method then
      match matchRoute r.route path with
      | some ps => some (r, ps)
      | none => lookup rs method path
    else lookup rs method path

/-- The methods that have a tree: those of the registrations, once each. -/
def methods : List Route → List String
  | [] => []
  | r :: rs => if r.method ∈ methods rs then methods rs else r.method :: methods rs

/-- The router's `allowed(path, reqMethod)` before sorting: for the path "*"
every method with a tree except OPTIONS, otherwise the methods other than the
request method and OPTIONS under which the path has a handler. -/
def allowed (routes : List Route) (path reqMethod : String) : List String :=
  if path = "*" then (methods routes).filter (fun m => m ≠ "OPTIONS")
  else (methods routes).filter (fun m =>
    m ≠ reqMethod ∧ m ≠ "OPTIONS" ∧ (lookup routes m path).isSome)

/-- Insertion of a method into a list sorted by the order of strings. -/
def insertSorted (m : String) : List String → List String
  | [] => [m]
  | x :: xs => if m < x then m :: x :: xs else x :: insertSorted m xs

/-- The value of the `Allow` header: the allowed methods and OPTIONS, sorted
and separated by ", ". -/
def allowHeader (allowed : List String) : String :=
  ", ".intercalate ((allowed ++ ["OPTIONS"]).foldr insertSorted [])

/-- The redirect, if any, that the router issues for a request for which its
lookup finds no handler: status code and location.  The router decides it from
its internal tree (trailing-slash recommendation, cleaned and case-insensitive
path); the decision is taken as given, as a function of the registered
(method, pattern) pairs, the request method and the path. -/
abbrev Redirects := List (String × String) → String → String → Option (Int × String)

/-- What the router's `ServeHTTP` does with a request. -/
inductive Decision where
  | handle (r : Route) (ps : List Param)
  | redirect (code : Int) (location : String)
  | options (allow : String)
  | methodNotAllowed (allow : String)
  | notFound

/-- The decision of `httprouter.Router.ServeHTTP` with the defaults of
`httprouter.New()`: the handler found by the lookup; else, when the method has
a tree, the method is not CONNECT and the path is not "/", the redirect if
there is one; else for OPTIONS the `Allow` reply and for other methods the 405
reply when some method is allowed for the path; else `NotFound`. -/
def dispatch (redirects : Redirects) (routes : List Route) (method path : String) : Decision :=
  match lookup routes method path with
  | some (r, ps) => Decision.handle r ps
  | none =>
    let redirect : Option (Int × String) :=
      if method ∈ methods routes ∧ method ≠ "CONNECT" ∧ path ≠ "/" then
        redirects (routes.map (fun r => (r.method, r.route))) method path
      else none
    match redirect with
    | some (code, location) => Decision.redirect code location
    | none =>
      if method = "OPTIONS" then
        if allowed routes path "OPTIONS" = [] then Decision.notFound
        else Decision.options (allowHeader (allowed routes path "OPTIONS"))
      else
        if allowed routes path method = [] then Decision.notFound
        else Decision.methodNotAllowed (allowHeader (allowed routes path method))

end router

namespace app

variable {World : Type}

/-- Go `New` (main.go lines 49-62). -/
def New (config : Config) : app World :=
  { config := config, routes := [], eventHandler := GoMap.empty, serveHTTPHandler := none }

/-- Go `(*app).Config`. -/
def Config (a : app World) : Neversorrow.Config := a.config

/-- Go `(*app).emit` (lines 158-162). -/
def emit (a : app World) (name : String) (world : World) : World :=
  match a.eventHandler.get name with
  | some handler => handler world
  | none => world

/-- Go `(*app).on` (lines 164-166); `on` is a reserved word here. -/
def on_ (a : app World) (name : String) (fn : OnHandler World) : app World :=
  { a with eventHandler := a.eventHandler.set name fn }

/-- A sequence of registrations made through `on`, in order. -/
def registered (a : app World) (regs : List (String × OnHandler World)) : app World :=
  regs.foldl (fun b r => b.on_ r.1 r.2) a

/-- Go `(*app).OnStart`. -/
def OnStart (a : app World) (fn : OnHandler World) : app World := a.on_ "start" fn

/-- Go `(*app).OnStop`. -/
def OnStop (a : app World) (fn : OnHandler World) : app World := a.on_ "stop" fn

/-- Go `(*app).OnClose`. -/
def OnClose (a : app World) (fn : OnHandler World) : app World := a.on_ "close" fn

/-- Go `(*app).Close` (lines 113-117); it always returns a nil error. -/
def Close (a : app World) (world : World) : World := a.emit "close" world

/-- Go `(*app).OnServeHTTP` (lines 183-186). -/
def OnServeHTTP (a : app World) (fn : OnServeHTTPHandler) : app World :=
  { a with serveHTTPHandler := some fn }

/-- Go `(*app).AddRoute` (lines 203-223): the registration of the closure.  The
panic of the router on a pattern it does not accept is not represented. -/
def AddRoute (a : app World) (method route : String) (handler : OnServeHTTPHandler) : app World :=
  { a with routes := a.routes ++ [{ method := method, route := route, handler := handler }] }

/-- The closure registered by `AddRoute` (lines 204-220), called by the router
with the bindings `p`: it takes the context stored in the request, or a new
one when there is none, assigns every binding into `ctx.Params()` in order and
calls the handler. -/
def routeHandle (a : app World) (handler : OnServeHTTPHandler) (req : RequestWithContext)
    (p : List Param) (s : ReqState) : ReqState × Option PanicValue :=
  let cs : requestContext × ReqState :=
    match req.value with
    | some ctx => (ctx, s)
    | none => newContext a.config req.request s
  let s2 := p.foldl (fun st q => cs.1.setParam q.Key q.Value st) cs.2
  handler cs.1 s2

/-- Go `(*app).contextFromRequest` (lines 232-238). -/
def contextFromRequest (a : app World) (req : RequestWithContext) (s : ReqState) :
    requestContext × ReqState :=
  match req.value with
  | some ctx => (ctx, s)
  | none => newContext a.config req.request s

/-- The handler returned by `(*app).NotFound` (lines 225-230). -/
def NotFound (a : app World) (sites : CallStacks) (req : RequestWithContext) (s : ReqState) :
    ReqState × Option PanicValue :=
  let cs := a.contextFromRequest req s
  cs.1.Error (GoError.app (errors.NewWithCode "not found" StatusNotFound sites.notFound)) cs.2

/-- Go `app.router.ServeHTTP(w, req)`: according to the router's decision, the
selected registration is called with its bindings, or the router answers by
itself (a redirect, the `Allow` header for OPTIONS, a 405 reply with
`http.Error`), or it calls `NotFound`.  A panic of the called handler passes
through (the router has no panic handler set). -/
def routerServeHTTP (a : app World) (redirects : router.Redirects) (sites : CallStacks)
    (req : RequestWithContext) (s : ReqState) : ReqState × Option PanicValue :=
  match router.dispatch redirects a.routes req.Method req.Path with
  | router.Decision.handle r ps => a.routeHandle r.handler req ps s
  | router.Decision.redirect code location =>
    ({ s with w := (httpRedirect s.w req.Method location code).1 },
      (httpRedirect s.w req.Method location code).2)
  | router.Decision.options allow => ({ s with w := s.w.HeaderSet "Allow" allow }, none)
  | router.Decision.methodNotAllowed allow =>
    ({ s with w := (httpError (s.w.HeaderSet "Allow" allow) "Method Not Allowed"
        StatusMethodNotAllowed).1 },
      (httpError (s.w.HeaderSet "Allow" allow) "Method Not Allowed" StatusMethodNotAllowed).2)
  | router.Decision.notFound => a.NotFound sites req s

/-- The body of `ServeHTTP` after the `defer` statement (lines 134-155). -/
def serveBody (a : app World) (redirects : router.Redirects) (sites : CallStacks)
    (ctx : requestContext) (req : RequestWithContext) (s : ReqState) :
    ReqState × Option PanicValue :=
  if req.Method = MethodGet ∧ req.Path = "/version" then
    (ctx.ResponseWithJSON
      (encodeVersionBody a.config.Version a.config.BuildTime
        (decide (a.config.ShowStacktrace = ""))) s, none)
  else
    match a.serveHTTPHandler with
    | some handler => handler ctx s
    | none => a.routerServeHTTP redirects sites req s

/-- The deferred function of `ServeHTTP` (lines 126-132), run with the outcome
of the body: a panic is recovered and reported through `ctx.Error`; what
leaves the function is what leaves that call. -/
def recovered (sites : CallStacks) (ctx : requestContext)
    (out : ReqState × Option PanicValue) : ReqState × Option PanicValue :=
  match out.2 with
  | some r =>
    ctx.Error (GoError.app
      (errors.NewWithCode ("Panic captured! " ++ r.text) 500 sites.recovered)) out.1
  | none => (out.1, none)

/-- Line 120 of `ServeHTTP`, `ctx := newContext(app, w, req)`, at the start of
the handling of a request with writer `w`: the context and the request state. -/
def requestStart (a : app World) (w : ResponseWriter) (req : Request) :
    requestContext × ReqState :=
  newContext a.config req { w := w, params := [] }

/-- Go `(*app).ServeHTTP` (lines 119-156) on a request with writer `w`: the final
request state and the panic value leaving the function, if any. -/
def ServeHTTP (a : app World) (redirects : router.Redirects) (sites : CallStacks)
    (w : ResponseWriter) (req : Request) : ReqState × Option PanicValue :=
  let cs := a.requestStart w req
  let req1 := req.WithContext cs.1
  recovered sites cs.1 (a.serveBody redirects sites cs.1 req1 cs.2)

end app

/-! ## Concrete inputs used in the examples -/

namespace Example

/-- A configuration that hides stack traces. -/
def cfgHide : Config :=
  { Address := ":8080", Version := "1.0", BuildTime := "today", ShowStacktrace := "no" }

/-- The outermost frame of a goroutine. -/
def frameGoexit : errors.Frame :=
  { Function := "runtime.goexit", File := "asm_amd64.s", Line := 1594 }

/-- Call stacks at the two construction sites. -/
def sites : CallStacks :=
  { recovered := [{ Function := "github.com/ptolstoi/neversorrow.(*app).ServeHTTP.func1",
                    File := "main.go", Line := 130 },
                  { Function := "runtime.gopanic", File := "panic.go", Line := 884 },
                  frameGoexit],
    notFound := [{ Function := "github.com/ptolstoi/neversorrow.(*app).NotFound.func1",
                   File := "main.go", Line := 228 },
                 { Function := "net/http.HandlerFunc.ServeHTTP", File := "server.go",
                   Line := 2109 },
                 frameGoexit] }

/-- The redirects of the router for the example applications and clean
lower-case paths: a path without handler is redirected to the path with the
trailing slash removed or added when that path has a handler under the request
method, with status 301 for GET and 307 for other methods. -/
def redirects : router.Redirects := fun table method path =>
  let toggled : String :=
    if path.toList.getLast? = some '/' then String.mk path.toList.dropLast
    else path ++ "/"
  if table.any (fun mr => decide (mr.1 = method) && (router.matchRoute mr.2 toggled).isSome) then
    some (if method = "GET" then 301 else 307, toggled)
  else none

/-- A frame whose function name has two parts, the first with a dot. -/
def frameTwoParts : errors.Frame :=
  { Function := "gopkg.in/yaml.v2.Unmarshal", File := "yaml.go", Line := 7 }

/-- A frame whose function name has three parts, the first with a dot. -/
def frameThreeParts : errors.Frame :=
  { Function := "github.com/ptolstoi/neversorrow.New", File := "main.go", Line := 49 }

/-- A context of an application configured with `cfgHide`. -/
def ctxHide : requestContext :=
  { ptr := 0, app := cfgHide, req := { Method := "GET", Path := "/x" } }

/-- The request state in which the context `ctxHide` has just been created. -/
def stateFresh : ReqState := { w := ResponseWriter.fresh, params := [GoMap.empty] }

/-- A handler that answers with the parameter `a` it finds in its context. -/
def handlerEcho : OnServeHTTPHandler := fun ctx s =>
  (ctx.ResponseWithJSON [("a", JsonValue.str (((ctx.Params s).get "a").getD ""))] s, none)

/-- A handler that writes a JSON response and then panics. -/
def handlerWriteThenPanic : OnServeHTTPHandler := fun ctx s =>
  (ctx.ResponseWithJSON [("ok", JsonValue.bool true)] s, some { text := "boom" })

/-- A handler that starts the response with status 204 and then panics. -/
def handlerNoContentThenPanic : OnServeHTTPHandler := fun _ s =>
  ({ s with w := (s.w.WriteHeader 204).1 }, some { text := "boom" })

/-- A handler that panics before writing anything. -/
def handlerPanic : OnServeHTTPHandler := fun _ s => (s, some { text := "boom" })

/-- An application with one route whose two named segments share a name. -/
def appTwice : app Unit := (app.New cfgHide).AddRoute "GET" "/:a/:a" handlerEcho

/-- An application with the route of the spec's end-to-end scenario. -/
def appUsers : app Unit := (app.New cfgHide).AddRoute "GET" "/users/:a" handlerEcho

/-- An application with a route whose only segment is a parameter. -/
def appAny : app Unit := (app.New cfgHide).AddRoute "GET" "/:a" handlerEcho

/-- An application with a catch-all route. -/
def appFiles : app Unit := (app.New cfgHide).AddRoute "GET" "/files/*a" handlerEcho

/-- An application whose catch-all handler writes and then panics. -/
def appPanics : app Unit := (app.New cfgHide).OnServeHTTP handlerWriteThenPanic

/-- An application whose catch-all handler sends status 204 and then panics. -/
def appNoContent : app Unit := (app.New cfgHide).OnServeHTTP handlerNoContentThenPanic

/-- An application whose catch-all handler panics at once. -/
def appPanicsAtOnce : app Unit := (app.New cfgHide).OnServeHTTP handlerPanic

end Example

/-! ## Lemmas on the library helpers -/

namespace strings

theorem Split_ne_nil (sep : Char) (s : List Char) : Split sep s ≠ [] := by
  induction s with
  | nil => simp [Split]
  | cons c cs ih =>
    unfold Split
    split
    · simp
    · split <;> simp

theorem Join_cons_cons (sep : Char) (p q : List Char) (ps : List (List Char)) :
    Join sep (p :: q :: ps) = p ++ sep :: Join sep (q :: ps) := rfl

theorem Join_Split (sep : Char) (s : List Char) : Join sep (Split sep s) = s := by
  induction s with
  | nil => rfl
  | cons c cs ih =>
    unfold Split
    split
    · next h =>
      cases hs : Split sep cs with
      | nil => exact absurd hs (Split_ne_nil sep cs)
      | cons q qs => rw [hs] at ih; simp [Join_cons_cons, ih, h]
    · cases hs : Split sep cs with
      | nil => exact absurd hs (Split_ne_nil sep cs)
      | cons q qs =>
        rw [hs] at ih
        cases qs with
        | nil => simpa [Join] using ih
        | cons r rs => simp only [Join_cons_cons] at ih ⊢; simp [← ih]

theorem not_mem_of_mem_Split (sep : Char) (s : List Char) :
    ∀ p ∈ Split sep s, sep ∉ p := by
  induction s with
  | nil => simp [Split]
  | cons c cs ih =>
    unfold Split
    split
    · intro p hp
      rcases List.mem_cons.1 hp with rfl | hp
      · simp
      · exact ih p hp
    · next h =>
      cases hs : Split sep cs with
      | nil => exact absurd hs (Split_ne_nil sep cs)
      | cons q qs =>
        rw [hs] at ih
        intro p hp
        rcases List.mem_cons.1 hp with rfl | hp
        · intro hm
          rcases List.mem_cons.1 hm with rfl | hm
          · exact h rfl
          · exact ih q (List.mem_cons_self _ _) hm
        · exact ih p (List.mem_cons_of_mem _ hp)

end strings

namespace errors

/-- The two cases of `functionName`, with what the stripped name is a suffix of. -/
theorem functionName_cases (fnName : String) :
    ((strings.Split '/' fnName.toList).length > 2 ∧
      (∃ p0 p1 : List Char, '.' ∈ p0 ∧ '/' ∉ p0 ∧ '/' ∉ p1 ∧
        fnName = String.mk p0 ++ "/" ++ String.mk p1 ++ "/" ++ functionName fnName)) ∨
    (((strings.Split '/' fnName.toList).length ≤ 2 ∨
        '.' ∉ (strings.Split '/' fnName.toList).headD []) ∧
      functionName fnName = fnName) := by
  by_cases hc : (strings.Split '/' fnName.toList).length > 2 ∧
      strings.Contains ((strings.Split '/' fnName.toList).headD []) '.' = true
  · left
    refine ⟨hc.1, ?_⟩
    have hj := strings.Join_Split '/' fnName.toList
    have hmem := strings.not_mem_of_mem_Split '/' fnName.toList
    have hname : functionName fnName
        = String.mk (strings.Join '/' ((strings.Split '/' fnName.toList).drop 2)) := by
      simp only [functionName]; rw [if_pos hc]
    obtain ⟨hlen, hdot⟩ := hc
    rw [hname]
    match hs : strings.Split '/' fnName.toList, hlen, hdot, hj, hmem with
    | p0 :: p1 :: q :: rest, _, hdot, hj, hmem =>
      refine ⟨p0, p1, ?_, hmem p0 (by simp), hmem p1 (by simp), ?_⟩
      · simpa [strings.Contains] using hdot
      · have h1 : fnName = String.mk fnName.toList := rfl
        rw [h1, ← hj]
        simp only [strings.Join_cons_cons, List.drop_succ_cons, List.drop_zero]
        apply String.ext
        simp
  · right
    refine ⟨?_, by simp only [functionName]; rw [if_neg hc]⟩
    by_cases hl : (strings.Split '/' fnName.toList).length > 2
    · right
      intro hd
      exact hc ⟨hl, by simpa [strings.Contains] using hd⟩
    · left; omega

end errors

namespace errors

theorem collect_eq (frames : List Frame) (stacktrace : List String) :
    collect frames stacktrace = stacktrace ++ frames.dropLast.map formatFrame := by
  induction frames generalizing stacktrace with
  | nil => simp [collect]
  | cons f rest ih =>
    cases rest with
    | nil => simp [collect, Next]
    | cons g r =>
      have h : collect (f :: g :: r) stacktrace =
          collect (g :: r) (stacktrace ++ [formatFrame f]) := rfl
      rw [h, ih]
      simp

/-- What the loop of `GetStacktrace` returns: the entries of the captured
frames except the last one, for which `Next` reports that no frame follows. -/
theorem GetStacktrace_eq (callers : List Frame) :
    GetStacktrace callers = (callers.take 10).dropLast.map formatFrame := by
  unfold GetStacktrace
  split
  · rw [collect_eq]; simp
  · next h =>
    have h0 : (callers.take 10).length = 0 := by omega
    rw [List.length_eq_zero.1 h0]
    rfl

/-- C10 (amended): `GetStacktrace` returns at most 10 entries; every entry is
that of the frame at the same position of the captured stack and reads
`<name>(<file>:<line>)`, where `<name>` is the function name without its first
two "/"-separated parts when the name has more than two parts and the first
contains a dot, and the function name unchanged otherwise. -/
theorem GetStacktrace_entries (callers : List Frame) :
    (GetStacktrace callers).length ≤ 10 ∧
    ∀ (i : Nat) (entry : String), (GetStacktrace callers)[i]? = some entry →
      ∃ (frame : Frame) (name : String),
        callers[i]? = some frame ∧
        entry = name ++ "(" ++ frame.File ++ ":" ++ toString frame.Line ++ ")" ∧
        (((strings.Split '/' frame.Function.toList).length > 2 ∧
            (∃ p0 p1 : List Char, '.' ∈ p0 ∧ '/' ∉ p0 ∧ '/' ∉ p1 ∧
              frame.Function = String.mk p0 ++ "/" ++ String.mk p1 ++ "/" ++ name)) ∨
          (((strings.Split '/' frame.Function.toList).length ≤ 2 ∨
              '.' ∉ (strings.Split '/' frame.Function.toList).headD []) ∧
            name = frame.Function)) := by
  rw [GetStacktrace_eq]
  refine ⟨?_, ?_⟩
  · simp only [List.length_map, List.length_dropLast, List.length_take]; omega
  · intro i entry hi
    rw [List.getElem?_map, List.getElem?_dropLast] at hi
    split at hi
    · rw [List.getElem?_take] at hi
      split at hi
      · rcases Option.map_eq_some'.1 hi with ⟨frame, hf, he⟩
        exact ⟨frame, functionName frame.Function, hf, he.symm,
          functionName_cases frame.Function⟩
      · simp at hi
    · simp at hi

/-- C10, an instance: in a stack of three frames, the entry of a frame whose
name has three parts, the first with a dot, has lost the first two parts. -/
theorem GetStacktrace_entries_witness :
    ∃ (frame : Frame) (name : String),
      [Example.frameThreeParts, Example.frameTwoParts, Example.frameGoexit][0]? = some frame ∧
      "neversorrow.New(main.go:49)" =
        name ++ "(" ++ frame.File ++ ":" ++ toString frame.Line ++ ")" ∧
      (((strings.Split '/' frame.Function.toList).length > 2 ∧
          (∃ p0 p1 : List Char, '.' ∈ p0 ∧ '/' ∉ p0 ∧ '/' ∉ p1 ∧
            frame.Function = String.mk p0 ++ "/" ++ String.mk p1 ++ "/" ++ name)) ∨
        (((strings.Split '/' frame.Function.toList).length ≤ 2 ∨
            '.' ∉ (strings.Split '/' frame.Function.toList).headD []) ∧
          name = frame.Function)) :=
  (GetStacktrace_entries
    [Example.frameThreeParts, Example.frameTwoParts, Example.frameGoexit]).2 0
    "neversorrow.New(main.go:49)" (by decide)

/-- C10, as stated, fails: the name "gopkg.in/yaml.v2.Unmarshal" has two
"/"-separated parts and a dot in the first, and is rendered unchanged, with
its first part still in place. -/
theorem GetStacktrace_two_parts_unchanged :
    (strings.Split '/' Example.frameTwoParts.Function.toList).length = 2 ∧
    strings.Contains ((strings.Split '/' Example.frameTwoParts.Function.toList).headD []) '.' = true ∧
    functionName Example.frameTwoParts.Function = "gopkg.in/yaml.v2.Unmarshal" ∧
    GetStacktrace [Example.frameTwoParts, Example.frameGoexit] =
      ["gopkg.in/yaml.v2.Unmarshal(yaml.go:7)"] := by
  decide

end errors

/-! ## The error response -/

namespace ResponseWriter

theorem WriteHeader_of_started (w : ResponseWriter) (c c0 : Int) (h : w.status = some c0) :
    w.WriteHeader c = (w, none) := by
  simp [WriteHeader, h]

theorem WriteHeader_of_final (w : ResponseWriter) (c : Int) (h : w.status = none)
    (hc : c = 101 ∨ (200 ≤ c ∧ c ≤ 999)) :
    w.WriteHeader c = ({ w with status := some c, sent := w.header }, none) := by
  have h1 : ¬ (c < 100 ∨ c > 999) := by omega
  have h2 : ¬ (c ≤ 199 ∧ c ≠ 101) := by omega
  simp [WriteHeader, h, h1, h2]

theorem WriteHeader_of_invalid (w : ResponseWriter) (c : Int) (h : w.status = none)
    (hc : c < 100 ∨ c > 999) :
    w.WriteHeader c = (w, some { text := "invalid WriteHeader code " ++ toString c }) := by
  simp [WriteHeader, h, hc]

theorem WriteHeader_ok (w : ResponseWriter) : (w.WriteHeader 200).1.body = w.body ∧
    (w.WriteHeader 200).1.header = w.header ∧
    (w.WriteHeader 200).1.status = some (w.status.getD 200) ∧
    (w.WriteHeader 200).1.sent = (if w.status = none then w.header else w.sent) := by
  cases h : w.status with
  | none => rw [WriteHeader_of_final w 200 h (by omega)]; simp
  | some c0 => rw [WriteHeader_of_started w 200 c0 h]; simp [h]

theorem Write_body (w : ResponseWriter) (data : Body) :
    (w.Write data).body =
      if bodyAllowedForStatus (w.status.getD 200) = true then w.body ++ [data] else w.body := by
  have h := WriteHeader_ok w
  have hs : (w.WriteHeader 200).1.status.getD 200 = w.status.getD 200 := by
    rw [h.2.2.1]; rfl
  unfold Write
  simp only [hs]
  split <;> simp [h.1]

theorem Write_status (w : ResponseWriter) (data : Body) :
    (w.Write data).status = some (w.status.getD 200) := by
  have h := WriteHeader_ok w
  unfold Write
  simp only []
  split <;> simp [h.2.2.1]

theorem Write_sent (w : ResponseWriter) (data : Body) :
    (w.Write data).sent = (if w.status = none then w.header else w.sent) := by
  have h := WriteHeader_ok w
  unfold Write
  simp only []
  split <;> simp [h.2.2.2]

theorem Write_header (w : ResponseWriter) (data : Body) : (w.Write data).header = w.header := by
  have h := WriteHeader_ok w
  unfold Write
  simp only []
  split <;> simp [h.2.1]

/-- What `WriteHeader` leaves of the state and when it panics, case by case. -/
theorem WriteHeader_cases (w : ResponseWriter) (c : Int) :
    ((w.WriteHeader c).2 ≠ none ∧ (w.WriteHeader c).1 = w ∧ w.status = none ∧
      (c < 100 ∨ c > 999)) ∨
    ((w.WriteHeader c).2 = none ∧ (w.WriteHeader c).1.body = w.body) := by
  cases h : w.status with
  | some c0 => right; rw [WriteHeader_of_started w c c0 h]; simp
  | none =>
    by_cases hc : c < 100 ∨ c > 999
    · left; rw [WriteHeader_of_invalid w c h hc]; simp [hc]
    · right
      by_cases h2 : c ≤ 199 ∧ c ≠ 101
      · simp [WriteHeader, h, hc, h2]
      · simp [WriteHeader, h, hc, h2]

end ResponseWriter

theorem encodeErrorBody_error (m : String) (st : List String) :
    Document.member (encodeErrorBody "error" m st) "error" = some (JsonValue.str "error") := by
  simp [encodeErrorBody, Document.member]

theorem encodeErrorBody_message (m : String) (st : List String) :
    Document.member (encodeErrorBody "error" m st) "message" = some (JsonValue.str m) := by
  simp [encodeErrorBody, Document.member]

theorem encodeErrorBody_stacktrace (m : String) (st : List String) :
    Document.member (encodeErrorBody "error" m st) "stacktrace" =
      if st = [] then none else some (JsonValue.strs st) := by
  by_cases h : st = [] <;> simp [encodeErrorBody, Document.member, h]

namespace requestContext

/-- The state after `Error` when `WriteHeader` has returned with writer `w1`. -/
theorem Error_of_WriteHeader (ctx : requestContext) (err : GoError) (s : ReqState)
    (w1 : ResponseWriter) (h : s.w.WriteHeader (errorStatus err) = (w1, none)) :
    ctx.Error err s =
      ({ s with w := ((w1.HeaderAdd "content-type" "application/json").Write
          (Body.json (encodeErrorBody "error" err.Error (errorStacktrace ctx err)))) }, none) := by
  simp only [Error, h]

theorem Error_of_final (ctx : requestContext) (err : GoError) (s : ReqState)
    (h : s.w.status = none)
    (hc : errorStatus err = 101 ∨ (200 ≤ errorStatus err ∧ errorStatus err ≤ 999)) :
    ctx.Error err s =
      ({ s with w := ((({ s.w with status := some (errorStatus err), sent := s.w.header } :
          ResponseWriter).HeaderAdd "content-type" "application/json").Write
          (Body.json (encodeErrorBody "error" err.Error (errorStacktrace ctx err)))) }, none) :=
  Error_of_WriteHeader ctx err s _ (ResponseWriter.WriteHeader_of_final s.w _ h hc)

theorem Error_of_started (ctx : requestContext) (err : GoError) (s : ReqState) (c : Int)
    (h : s.w.status = some c) :
    ctx.Error err s =
      ({ s with w := ((s.w.HeaderAdd "content-type" "application/json").Write
          (Body.json (encodeErrorBody "error" err.Error (errorStacktrace ctx err)))) }, none) :=
  Error_of_WriteHeader ctx err s _ (ResponseWriter.WriteHeader_of_started s.w _ c h)

theorem Error_of_invalid (ctx : requestContext) (err : GoError) (s : ReqState)
    (h : s.w.status = none) (hc : errorStatus err < 100 ∨ errorStatus err > 999) :
    ctx.Error err s =
      (s, some { text := "invalid WriteHeader code " ++ toString (errorStatus err) }) := by
  simp only [Error, ResponseWriter.WriteHeader_of_invalid s.w _ h hc]

/-- Either `Error` panics in `WriteHeader`, on an unstarted response and a
status code outside 100..999, and leaves the state as it was, or it returns
with the response started, and has appended the error document to the body
when the status of the response allows a body and written nothing otherwise. -/
theorem Error_cases (ctx : requestContext) (err : GoError) (s : ReqState) :
    ((ctx.Error err s).2 ≠ none ∧ (ctx.Error err s).1 = s ∧ s.w.status = none ∧
      (errorStatus err < 100 ∨ errorStatus err > 999)) ∨
    ((ctx.Error err s).2 = none ∧ (ctx.Error err s).1.params = s.params ∧
      ∃ c : Int, (ctx.Error err s).1.w.status = some c ∧
        (ctx.Error err s).1.w.body =
          if ResponseWriter.bodyAllowedForStatus c = true then
            s.w.body ++ [Body.json (encodeErrorBody "error" err.Error (errorStacktrace ctx err))]
          else s.w.body) := by
  rcases ResponseWriter.WriteHeader_cases s.w (errorStatus err) with ⟨_, _, h3, h4⟩ | ⟨h1, h2⟩
  · left
    rw [Error_of_invalid ctx err s h3 h4]
    exact ⟨by simp, rfl, h3, h4⟩
  · right
    have hw : s.w.WriteHeader (errorStatus err) = ((s.w.WriteHeader (errorStatus err)).1, none) := by
      rw [← h1]
    rw [Error_of_WriteHeader ctx err s _ hw]
    refine ⟨rfl, rfl, (s.w.WriteHeader (errorStatus err)).1.status.getD 200, ?_, ?_⟩
    · simp only [ResponseWriter.Write_status]; rfl
    · simp only [ResponseWriter.Write_body]
      simp [ResponseWriter.HeaderAdd, h2]

/-- With a status code that `WriteHeader` accepts, `Error` returns. -/
theorem Error_returns (ctx : requestContext) (err : GoError) (s : ReqState)
    (hc : 100 ≤ errorStatus err ∧ errorStatus err ≤ 999) : (ctx.Error err s).2 = none := by
  rcases Error_cases ctx err s with ⟨_, _, _, h4⟩ | ⟨h1, _⟩
  · omega
  · exact h1

/-- When `Error` returns with a response whose status allows a body, it has
appended the error document. -/
theorem Error_body (ctx : requestContext) (err : GoError) (s : ReqState) (c : Int)
    (hr : (ctx.Error err s).2 = none) (hs : (ctx.Error err s).1.w.status = some c)
    (ha : ResponseWriter.bodyAllowedForStatus c = true) :
    (ctx.Error err s).1.w.body = s.w.body ++
      [Body.json (encodeErrorBody "error" err.Error (errorStacktrace ctx err))] := by
  rcases Error_cases ctx err s with ⟨h, _⟩ | ⟨_, _, c2, h2, h3⟩
  · exact absurd hr h
  · rw [hs] at h2
    cases h2
    rw [h3, if_pos ha]

/-- When `Error` returns with a response whose status allows no body, it has
written nothing. -/
theorem Error_no_body (ctx : requestContext) (err : GoError) (s : ReqState) (c : Int)
    (hr : (ctx.Error err s).2 = none) (hs : (ctx.Error err s).1.w.status = some c)
    (ha : ResponseWriter.bodyAllowedForStatus c = false) :
    (ctx.Error err s).1.w.body = s.w.body := by
  rcases Error_cases ctx err s with ⟨h, _⟩ | ⟨_, _, c2, h2, h3⟩
  · exact absurd hr h
  · rw [hs] at h2
    cases h2
    rw [h3, if_neg (by simp [ha])]

theorem Error_status_of_fresh (ctx : requestContext) (err : GoError) (s : ReqState)
    (h : s.w.status = none)
    (hc : errorStatus err = 101 ∨ (200 ≤ errorStatus err ∧ errorStatus err ≤ 999)) :
    (ctx.Error err s).1.w.status = some (errorStatus err) := by
  rw [Error_of_final ctx err s h hc]
  simp [ResponseWriter.Write_status, ResponseWriter.HeaderAdd]

theorem Error_status_of_started (ctx : requestContext) (err : GoError) (s : ReqState) (c : Int)
    (h : s.w.status = some c) : (ctx.Error err s).1.w.status = some c := by
  rw [Error_of_started ctx err s c h]
  simp [ResponseWriter.Write_status, ResponseWriter.HeaderAdd, h]

end requestContext

namespace requestContext

theorem bodyAllowedForStatus_iff (c : Int) :
    ResponseWriter.bodyAllowedForStatus c = true ↔
      ¬ (100 ≤ c ∧ c ≤ 199) ∧ c ≠ 204 ∧ c ≠ 304 := by
  simp only [ResponseWriter.bodyAllowedForStatus, Bool.not_eq_true', Bool.or_eq_false_iff,
    decide_eq_false_iff_not]
  tauto

/-- C1 (amended): for an error whose status code, when it is an `errors.Error`,
starts a response (101 or 200..999), on a response that has not been started,
`ctx.Error(err)` returns and writes the status `err.StatusCode()` for an
`errors.Error` and 500 for any other error; unless that status allows no body
(101, 204, 304), in which case nothing is written, it writes a JSON body with
`error` = "error" and `message` = `err.Error()`; for `errors.NewWithCode(X, C)`
with `C` in 200..999 other than 204 and 304 the status is `C` and the message
is `X`.  (Texts are Lean strings, that is, valid UTF-8.) -/
theorem Error_status_and_message (ctx : requestContext) (err : GoError) (s : ReqState)
    (hfresh : s.w.status = none)
    (hcode : ∀ e : errors.internalError, err = GoError.app e →
      e.StatusCode = 101 ∨ (200 ≤ e.StatusCode ∧ e.StatusCode ≤ 999)) :
    (ctx.Error err s).2 = none ∧
    (ctx.Error err s).1.w.status =
      some (match err with
        | GoError.app e => e.StatusCode
        | GoError.plain _ => 500) ∧
    (errorStatus err ≠ 101 ∧ errorStatus err ≠ 204 ∧ errorStatus err ≠ 304 →
      ∃ d : Document, (ctx.Error err s).1.w.body = s.w.body ++ [Body.json d] ∧
        d.member "error" = some (JsonValue.str "error") ∧
        d.member "message" = some (JsonValue.str err.Error)) ∧
    (errorStatus err = 101 ∨ errorStatus err = 204 ∨ errorStatus err = 304 →
      (ctx.Error err s).1.w.body = s.w.body) ∧
    (∀ (X : String) (C : Int) (callers : List errors.Frame),
      200 ≤ C ∧ C ≤ 999 ∧ C ≠ 204 ∧ C ≠ 304 →
      (ctx.Error (GoError.app (errors.NewWithCode X C callers)) s).2 = none ∧
      (ctx.Error (GoError.app (errors.NewWithCode X C callers)) s).1.w.status = some C ∧
      ∃ d : Document,
        (ctx.Error (GoError.app (errors.NewWithCode X C callers)) s).1.w.body =
          s.w.body ++ [Body.json d] ∧
        d.member "error" = some (JsonValue.str "error") ∧
        d.member "message" = some (JsonValue.str X)) := by
  have main : ∀ err2 : GoError,
      (errorStatus err2 = 101 ∨ (200 ≤ errorStatus err2 ∧ errorStatus err2 ≤ 999)) →
      (ctx.Error err2 s).2 = none ∧
      (ctx.Error err2 s).1.w.status = some (errorStatus err2) ∧
      (errorStatus err2 ≠ 101 ∧ errorStatus err2 ≠ 204 ∧ errorStatus err2 ≠ 304 →
        ∃ d : Document, (ctx.Error err2 s).1.w.body = s.w.body ++ [Body.json d] ∧
          d.member "error" = some (JsonValue.str "error") ∧
          d.member "message" = some (JsonValue.str err2.Error)) ∧
      (errorStatus err2 = 101 ∨ errorStatus err2 = 204 ∨ errorStatus err2 = 304 →
        (ctx.Error err2 s).1.w.body = s.w.body) := by
    intro err2 hc
    have hr := Error_returns ctx err2 s (by omega)
    have hst := Error_status_of_fresh ctx err2 s hfresh hc
    refine ⟨hr, hst, ?_, ?_⟩
    · intro hne
      have ha : ResponseWriter.bodyAllowedForStatus (errorStatus err2) = true :=
        (bodyAllowedForStatus_iff _).2 ⟨by omega, hne.2.1, hne.2.2⟩
      exact ⟨_, Error_body ctx err2 s _ hr hst ha, encodeErrorBody_error _ _,
        encodeErrorBody_message _ _⟩
    · intro h3
      have ha : ResponseWriter.bodyAllowedForStatus (errorStatus err2) = false := by
        cases hb : ResponseWriter.bodyAllowedForStatus (errorStatus err2) with
        | false => rfl
        | true => have := (bodyAllowedForStatus_iff _).1 hb; omega
      exact Error_no_body ctx err2 s _ hr hst ha
  have hc : errorStatus err = 101 ∨ (200 ≤ errorStatus err ∧ errorStatus err ≤ 999) := by
    cases err with
    | app e => exact hcode e rfl
    | plain msg => right; simp [errorStatus, errors.StatusInternalServerError]
  obtain ⟨m1, m2, m3, m4⟩ := main err hc
  refine ⟨m1, ?_, m3, m4, ?_⟩
  · rw [m2]; cases err <;> rfl
  · intro X C callers hC
    have hC2 : errorStatus (GoError.app (errors.NewWithCode X C callers)) = C := rfl
    obtain ⟨n1, n2, n3, _⟩ := main (GoError.app (errors.NewWithCode X C callers))
      (by rw [hC2]; omega)
    rw [hC2] at n2 n3
    exact ⟨n1, n2, n3 ⟨by omega, hC.2.2.1, hC.2.2.2⟩⟩

/-- C1 at a concrete input: the error `NewWithCode("missing field", 400)` on a
fresh response. -/
theorem Error_status_and_message_witness :
    Example.stateFresh.w.status = none ∧
    (Example.ctxHide.Error (GoError.app (errors.NewWithCode "missing field" 400 []))
      Example.stateFresh).2 = none ∧
    (Example.ctxHide.Error (GoError.app (errors.NewWithCode "missing field" 400 []))
      Example.stateFresh).1.w.status = some 400 ∧
    (Example.ctxHide.Error (GoError.app (errors.NewWithCode "missing field" 400 []))
      Example.stateFresh).1.w.body =
        [Body.json [("error", JsonValue.str "error"),
          ("message", JsonValue.str "missing field")]] :=
  have h := Error_status_and_message Example.ctxHide
    (GoError.app (errors.NewWithCode "missing field" 400 [])) Example.stateFresh rfl
    (fun e he => by cases he; decide)
  ⟨rfl, h.1, h.2.1, by decide⟩

/-- C1, as stated, fails: for `errors.NewWithCode("x", 0)` on a fresh response
`WriteHeader` panics with "invalid WriteHeader code 0", so `Error` writes
neither a status nor a body; for `errors.NewWithCode("x", 103)` the status 103
goes out as an informational response and the response itself gets status
200; for `errors.NewWithCode("x", 204)` the status is 204 and the body is
refused, so no message is written. -/
theorem Error_invalid_code_panics :
    Example.ctxHide.Error (GoError.app (errors.NewWithCode "x" 0 [])) Example.stateFresh =
      (Example.stateFresh, some { text := "invalid WriteHeader code 0" }) ∧
    (Example.ctxHide.Error (GoError.app (errors.NewWithCode "x" 0 []))
      Example.stateFresh).1.w.status = none ∧
    (Example.ctxHide.Error (GoError.app (errors.NewWithCode "x" 0 []))
      Example.stateFresh).1.w.body = [] ∧
    (Example.ctxHide.Error (GoError.app (errors.NewWithCode "x" 103 []))
      Example.stateFresh).1.w.status = some 200 ∧
    (Example.ctxHide.Error (GoError.app (errors.NewWithCode "x" 103 []))
      Example.stateFresh).1.w.informational = [(103, [])] ∧
    (Example.ctxHide.Error (GoError.app (errors.NewWithCode "x" 204 []))
      Example.stateFresh).1.w.status = some 204 ∧
    (Example.ctxHide.Error (GoError.app (errors.NewWithCode "x" 204 []))
      Example.stateFresh).1.w.body = [] := by
  decide

/-- C2: the body written by `ctx.Error(err)` has a `stacktrace` member only if
`err` is an `errors.Error` and `ShowStacktrace` is empty, and the member is then
`err.Stacktrace()`; it has none when `ShowStacktrace` is non-empty or `err` is
a plain error.  (With `ShowStacktrace` empty and a non-empty stack the member
is present.)  `Error` writes that body, or it writes nothing: when
`WriteHeader` panics, or when the status of the response allows no body. -/
theorem Error_stacktrace_member (ctx : requestContext) (err : GoError) (s : ReqState) :
    ((ctx.Error err s).1.w.body = s.w.body ∧
      ((ctx.Error err s).2 ≠ none ∨
        ∃ c : Int, (ctx.Error err s).1.w.status = some c ∧
          ResponseWriter.bodyAllowedForStatus c = false)) ∨
    ((ctx.Error err s).2 = none ∧
      ∃ d : Document, (ctx.Error err s).1.w.body = s.w.body ++ [Body.json d] ∧
        (∀ v : JsonValue, d.member "stacktrace" = some v →
          ctx.app.ShowStacktrace = "" ∧
          ∃ e : errors.internalError, err = GoError.app e ∧ v = JsonValue.strs e.Stacktrace) ∧
        (ctx.app.ShowStacktrace ≠ "" ∨ (∃ msg : String, err = GoError.plain msg) →
          d.member "stacktrace" = none) ∧
        (∀ e : errors.internalError, err = GoError.app e → ctx.app.ShowStacktrace = "" →
          e.Stacktrace ≠ [] → d.member "stacktrace" = some (JsonValue.strs e.Stacktrace))) := by
  rcases Error_cases ctx err s with ⟨h1, h2, _, _⟩ | ⟨h1, _, c, hc, hb⟩
  · left
    exact ⟨by rw [h2], Or.inl h1⟩
  · cases ha : ResponseWriter.bodyAllowedForStatus c with
    | false =>
      left
      refine ⟨?_, Or.inr ⟨c, hc, ha⟩⟩
      rw [hb, ha]; simp
    | true =>
      right
      rw [ha, if_pos rfl] at hb
      refine ⟨h1, _, hb, ?_, ?_, ?_⟩
      · intro v hv
        rw [encodeErrorBody_stacktrace] at hv
        cases err with
        | plain msg => simp [errorStacktrace] at hv
        | app e =>
          by_cases hs : ctx.app.ShowStacktrace = ""
          · refine ⟨hs, e, rfl, ?_⟩
            simp only [errorStacktrace, hs, if_true] at hv
            split at hv
            · cases hv
            · exact (Option.some.inj hv).symm
          · simp [errorStacktrace, hs] at hv
      · intro h
        rw [encodeErrorBody_stacktrace]
        rcases h with h | ⟨msg, rfl⟩
        · cases err <;> simp [errorStacktrace, h]
        · simp [errorStacktrace]
      · intro e he hs hne
        subst he
        rw [encodeErrorBody_stacktrace]
        simp [errorStacktrace, hs, hne]

/-- C2 at a concrete input: with a non-empty `ShowStacktrace` the body of an
application error that carries a stack has no `stacktrace` member. -/
theorem Error_stacktrace_member_witness :
    ∃ d : Document,
      (Example.ctxHide.Error
        (GoError.app (errors.NewWithCode "x" 400 [Example.frameThreeParts, Example.frameGoexit]))
        Example.stateFresh).1.w.body = Example.stateFresh.w.body ++ [Body.json d] ∧
      d.member "stacktrace" = none := by
  rcases Error_stacktrace_member Example.ctxHide
    (GoError.app (errors.NewWithCode "x" 400 [Example.frameThreeParts, Example.frameGoexit]))
    Example.stateFresh with ⟨h, _⟩ | ⟨_, d, hd, _, h2, _⟩
  · exact absurd h (by decide)
  · exact ⟨d, hd, h2 (Or.inl (by decide))⟩

/-- C3, what the code does: on a fresh response and with a status code that
starts a response (always so for a plain error, whose code is 500),
`ctx.Error(err)` calls `WriteHeader` before it adds `content-type` to the
header map, so the header set of the response is the empty one fixed by
`WriteHeader` and does not contain `content-type: application/json`; the entry
is only in the header map.  The status is the one of that single
`WriteHeader`. -/
theorem Error_content_type_not_sent (ctx : requestContext) (err : GoError)
    (params : List (GoMap String))
    (hcode : ∀ e : errors.internalError, err = GoError.app e →
      e.StatusCode = 101 ∨ (200 ≤ e.StatusCode ∧ e.StatusCode ≤ 999)) :
    (ctx.Error err { w := ResponseWriter.fresh, params := params }).1.w.sent = [] ∧
    ("content-type", "application/json") ∉
      (ctx.Error err { w := ResponseWriter.fresh, params := params }).1.w.sent ∧
    (ctx.Error err { w := ResponseWriter.fresh, params := params }).1.w.header =
      [("content-type", "application/json")] ∧
    (ctx.Error err { w := ResponseWriter.fresh, params := params }).1.w.status =
      some (errorStatus err) := by
  have hc : errorStatus err = 101 ∨ (200 ≤ errorStatus err ∧ errorStatus err ≤ 999) := by
    cases err with
    | app e => exact hcode e rfl
    | plain msg => right; simp [errorStatus, errors.StatusInternalServerError]
  rw [Error_of_final ctx err _ rfl hc]
  simp [ResponseWriter.Write_sent, ResponseWriter.Write_header, ResponseWriter.Write_status,
    ResponseWriter.HeaderAdd, ResponseWriter.fresh]

/-- C3 at the failing input: `errors.New("boom")` on a fresh response. -/
theorem Error_content_type_not_sent_witness :
    (Example.ctxHide.Error (GoError.app (errors.New "boom" []))
      { w := ResponseWriter.fresh, params := [] }).1.w.sent = [] ∧
    (Example.ctxHide.Error (GoError.app (errors.New "boom" []))
      { w := ResponseWriter.fresh, params := [] }).1.w.status = some 500 :=
  have h := Error_content_type_not_sent Example.ctxHide (GoError.app (errors.New "boom" [])) []
    (fun e he => by cases he; decide)
  ⟨h.1, h.2.2.2⟩

/-- The sibling path: `ctx.ResponseWithJSON(v)` on a fresh response adds the
header first, and the header set of the response contains it. -/
theorem ResponseWithJSON_content_type_sent (ctx : requestContext) (v : Document)
    (params : List (GoMap String)) :
    (ctx.ResponseWithJSON v { w := ResponseWriter.fresh, params := params }).w.sent =
      [("content-type", "application/json")] ∧
    (ctx.ResponseWithJSON v { w := ResponseWriter.fresh, params := params }).w.status =
      some 200 := by
  simp [ResponseWithJSON, ResponseWriter.Write_sent, ResponseWriter.Write_status,
    ResponseWriter.HeaderAdd, ResponseWriter.fresh]

end requestContext

/-! ## Go maps -/

namespace GoMap

variable {V : Type}

theorem getEntries_setEntries_self (k : String) (v : V) (l : List (String × V)) :
    getEntries k (setEntries k v l) = some v := by
  induction l with
  | nil => simp [setEntries, getEntries]
  | cons e rest ih =>
    obtain ⟨k1, v1⟩ := e
    by_cases h : k1 = k
    · simp [setEntries, getEntries, h]
    · simp [setEntries, getEntries, h, ih]

theorem getEntries_setEntries_ne (k k2 : String) (v : V) (l : List (String × V)) (hne : k ≠ k2) :
    getEntries k2 (setEntries k v l) = getEntries k2 l := by
  induction l with
  | nil => simp [setEntries, getEntries, hne]
  | cons e rest ih =>
    obtain ⟨k1, v1⟩ := e
    by_cases h : k1 = k
    · subst h
      simp [setEntries, getEntries, hne]
    · by_cases h2 : k1 = k2
      · subst h2
        simp [setEntries, getEntries, h]
      · simp [setEntries, getEntries, h, h2, ih]

theorem get_set_self (m : GoMap V) (k : String) (v : V) : (m.set k v).get k = some v :=
  getEntries_setEntries_self k v m.entries

theorem get_set_ne (m : GoMap V) (k k2 : String) (v : V) (hne : k ≠ k2) :
    (m.set k v).get k2 = m.get k2 :=
  getEntries_setEntries_ne k k2 v m.entries hne

theorem get_empty (k : String) : (GoMap.empty : GoMap V).get k = none := rfl

theorem mem_keys_setEntries (k k2 : String) (v : V) (l : List (String × V)) :
    k2 ∈ (setEntries k v l).map Prod.fst ↔ k2 = k ∨ k2 ∈ l.map Prod.fst := by
  induction l with
  | nil => simp [setEntries]
  | cons e rest ih =>
    obtain ⟨k1, v1⟩ := e
    by_cases h : k1 = k
    · subst h
      simp [setEntries]
    · simp only [setEntries, h, if_false, List.map_cons, List.mem_cons, ih]
      tauto

theorem nodup_keys_setEntries (k : String) (v : V) (l : List (String × V))
    (h : (l.map Prod.fst).Nodup) : ((setEntries k v l).map Prod.fst).Nodup := by
  induction l with
  | nil => simp [setEntries]
  | cons e rest ih =>
    obtain ⟨k1, v1⟩ := e
    simp only [List.map_cons, List.nodup_cons] at h
    by_cases hk : k1 = k
    · subst hk
      simpa [setEntries] using h
    · simp only [setEntries, hk, if_false, List.map_cons, List.nodup_cons]
      refine ⟨?_, ih h.2⟩
      rw [mem_keys_setEntries]
      rintro (h1 | h1)
      · exact hk h1
      · exact h.1 h1

theorem nodup_keys_set (m : GoMap V) (k : String) (v : V) (h : m.keys.Nodup) :
    (m.set k v).keys.Nodup :=
  nodup_keys_setEntries k v m.entries h

theorem nodup_keys_empty : (GoMap.empty : GoMap V).keys.Nodup := by
  simp [GoMap.empty, keys]

/-- After a sequence of assignments to a map, a key holds the value of its
last assignment, or what it held before when it was not assigned. -/
theorem get_foldl_set (ps : List Param) (m : GoMap String) (k : String) :
    (ps.foldl (fun acc p => acc.set p.Key p.Value) m).get k =
      (((ps.filter (fun p => decide (p.Key = k))).getLast?).map Param.Value).or (m.get k) := by
  induction ps using List.reverseRecOn with
  | nil => simp
  | append_singleton ps p ih =>
    rw [List.foldl_append, List.filter_append]
    simp only [List.foldl_cons, List.foldl_nil]
    by_cases hk : p.Key = k
    · subst hk
      simp [get_set_self]
    · rw [get_set_ne _ _ _ _ hk, ih]
      simp [List.filter_cons, hk]

end GoMap

/-! ## Lifecycle events -/

namespace app

variable {World : Type}

theorem nodup_keys_registered (a : app World) (regs : List (String × OnHandler World))
    (h : a.eventHandler.keys.Nodup) : (a.registered regs).eventHandler.keys.Nodup := by
  induction regs generalizing a with
  | nil => exact h
  | cons r rest ih =>
    exact ih (a.on_ r.1 r.2) (GoMap.nodup_keys_set _ _ _ h)

theorem emit_on_on (a : app World) (name : String) (h1 h2 : OnHandler World) (world : World) :
    ((a.on_ name h1).on_ name h2).emit name world = h2 world := by
  simp [emit, on_, GoMap.get_set_self]

/-- C9: after a handler `h1` and then a handler `h2` are registered for the
same lifecycle event, emitting the event runs `h2` once on the world and does
not run `h1`, for each of "start", "stop", "close" and whatever was registered
before; the handler table of an application never holds two handlers for one
event name. -/
theorem lifecycle_handler_replaced (config : Neversorrow.Config)
    (regs : List (String × OnHandler World)) (h1 h2 : OnHandler World) (world : World) :
    ((((New config).registered regs).OnStart h1).OnStart h2).emit "start" world = h2 world ∧
    ((((New config).registered regs).OnStop h1).OnStop h2).emit "stop" world = h2 world ∧
    ((((New config).registered regs).OnClose h1).OnClose h2).emit "close" world = h2 world ∧
    ((((New config).registered regs).OnClose h1).OnClose h2).Close world = h2 world ∧
    (∀ name : String,
      ((New config : app World).registered regs).eventHandler.keys.count name ≤ 1) ∧
    (∀ name : String,
      ((((New config).registered regs).OnStart h1).OnStart h2).eventHandler.keys.count name ≤ 1) := by
  refine ⟨emit_on_on _ _ _ _ _, emit_on_on _ _ _ _ _, emit_on_on _ _ _ _ _,
    emit_on_on _ _ _ _ _, ?_, ?_⟩
  · intro name
    exact List.nodup_iff_count_le_one.1
      (nodup_keys_registered _ regs GoMap.nodup_keys_empty) name
  · intro name
    exact List.nodup_iff_count_le_one.1
      (GoMap.nodup_keys_set _ _ _ (GoMap.nodup_keys_set _ _ _
        (nodup_keys_registered _ regs GoMap.nodup_keys_empty))) name

/-- C9 at concrete handlers that log their name: only the second one logs. -/
theorem lifecycle_handler_replaced_witness :
    ((((New Example.cfgHide : app (List String)).registered
        [("stop", fun l => l ++ ["s"])]).OnStart (fun l => l ++ ["h1"])).OnStart
          (fun l => l ++ ["h2"])).emit "start" [] = ["h2"] :=
  (lifecycle_handler_replaced Example.cfgHide [("stop", fun l => l ++ ["s"])]
    (fun l => l ++ ["h1"]) (fun l => l ++ ["h2"]) []).1

end app

/-! ## The request path -/

namespace requestContext

theorem setParam_w (ctx : requestContext) (k v : String) (s : ReqState) :
    (ctx.setParam k v s).w = s.w := rfl

theorem setParam_length (ctx : requestContext) (k v : String) (s : ReqState) :
    (ctx.setParam k v s).params.length = s.params.length := by
  simp [setParam]

theorem Params_setParam (ctx : requestContext) (k v : String) (s : ReqState)
    (h : ctx.ptr < s.params.length) :
    ctx.Params (ctx.setParam k v s) = (ctx.Params s).set k v := by
  simp [setParam, Params, List.getD_eq_getElem?_getD, h]

theorem foldl_setParam (ctx : requestContext) (ps : List Param) (s : ReqState)
    (h : ctx.ptr < s.params.length) :
    (ps.foldl (fun st q => ctx.setParam q.Key q.Value st) s).w = s.w ∧
    ctx.Params (ps.foldl (fun st q => ctx.setParam q.Key q.Value st) s) =
      ps.foldl (fun acc p => acc.set p.Key p.Value) (ctx.Params s) := by
  induction ps generalizing s with
  | nil => exact ⟨rfl, rfl⟩
  | cons p rest ih =>
    have h2 : ctx.ptr < (ctx.setParam p.Key p.Value s).params.length := by
      rw [setParam_length]; exact h
    obtain ⟨i1, i2⟩ := ih (ctx.setParam p.Key p.Value s) h2
    refine ⟨?_, ?_⟩
    · simpa [List.foldl_cons, setParam_w] using i1
    · simp only [List.foldl_cons]
      rw [i2, Params_setParam ctx _ _ s h]

end requestContext

namespace router

theorem lookup_eq_none (routes : List Route) (method path : String)
    (h : ∀ r ∈ routes, r.method = method → matchRoute r.route path = none) :
    lookup routes method path = none := by
  induction routes with
  | nil => rfl
  | cons r rest ih =>
    have hrest := ih (fun q hq => h q (List.mem_cons_of_mem _ hq))
    by_cases hm : r.method = method
    · simp [lookup, hm, h r (List.mem_cons_self _ _) hm, hrest]
    · simp [lookup, hm, hrest]

theorem dispatch_of_lookup (redirects : Redirects) (routes : List Route) (method path : String)
    (r : Route) (ps : List Param) (h : lookup routes method path = some (r, ps)) :
    dispatch redirects routes method path = Decision.handle r ps := by
  simp only [dispatch, h]

/-- The router calls `NotFound` when its lookup finds no handler, it issues no
redirect and it has no method to offer for the path. -/
theorem dispatch_notFound (redirects : Redirects) (routes : List Route) (method path : String)
    (hl : lookup routes method path = none)
    (hr : redirects (routes.map (fun r => (r.method, r.route))) method path = none)
    (ha : allowed routes path method = []) :
    dispatch redirects routes method path = Decision.notFound := by
  simp only [dispatch, hl, hr, ite_self]
  by_cases hm : method = "OPTIONS"
  · subst hm
    simp [ha]
  · simp [hm, ha]

end router

namespace app

variable {World : Type}

theorem requestStart_fst (a : app World) (w : ResponseWriter) (req : Request) :
    (a.requestStart w req).1 = { ptr := 0, app := a.config, req := req } := rfl

theorem requestStart_snd (a : app World) (w : ResponseWriter) (req : Request) :
    (a.requestStart w req).2 = { w := w, params := [GoMap.empty] } := rfl

theorem ServeHTTP_eq (a : app World) (redirects : router.Redirects) (sites : CallStacks)
    (w : ResponseWriter) (req : Request) :
    a.ServeHTTP redirects sites w req =
      recovered sites (a.requestStart w req).1
        (a.serveBody redirects sites (a.requestStart w req).1
          (req.WithContext (a.requestStart w req).1) (a.requestStart w req).2) := rfl

theorem recovered_of_panic (sites : CallStacks) (ctx : requestContext) (s1 : ReqState)
    (r : PanicValue) :
    recovered sites ctx (s1, some r) =
      ctx.Error (GoError.app
        (errors.NewWithCode ("Panic captured! " ++ r.text) 500 sites.recovered)) s1 := rfl

theorem recovered_of_return (sites : CallStacks) (ctx : requestContext)
    (out : ReqState × Option PanicValue) (h : out.2 = none) :
    recovered sites ctx out = (out.1, none) := by
  simp only [recovered, h]

theorem recovered_snd (sites : CallStacks) (ctx : requestContext)
    (out : ReqState × Option PanicValue) : (recovered sites ctx out).2 = none := by
  obtain ⟨s1, o⟩ := out
  cases o with
  | none => rfl
  | some r =>
    rw [recovered_of_panic]
    exact requestContext.Error_returns ctx _ s1
      (by show (100 : Int) ≤ 500 ∧ (500 : Int) ≤ 999; omega)

/-- The function `ServeHTTP` returns normally on every request. -/
theorem ServeHTTP_returns (a : app World) (redirects : router.Redirects) (sites : CallStacks)
    (w : ResponseWriter) (req : Request) : (a.ServeHTTP redirects sites w req).2 = none := by
  rw [ServeHTTP_eq]; exact recovered_snd _ _ _

theorem serveBody_version (a : app World) (redirects : router.Redirects) (sites : CallStacks)
    (ctx : requestContext) (req : RequestWithContext) (s : ReqState)
    (hm : req.Method = "GET") (hp : req.Path = "/version") :
    a.serveBody redirects sites ctx req s =
      (ctx.ResponseWithJSON
        (encodeVersionBody a.config.Version a.config.BuildTime
          (decide (a.config.ShowStacktrace = ""))) s, none) := by
  simp [serveBody, MethodGet, hm, hp]

theorem serveBody_other (a : app World) (redirects : router.Redirects) (sites : CallStacks)
    (ctx : requestContext) (req : RequestWithContext) (s : ReqState)
    (hver : ¬ (req.Method = "GET" ∧ req.Path = "/version")) :
    a.serveBody redirects sites ctx req s =
      match a.serveHTTPHandler with
      | some handler => handler ctx s
      | none => a.routerServeHTTP redirects sites req s := by
  have h : ¬ (req.Method = MethodGet ∧ req.Path = "/version") := hver
  simp only [serveBody, if_neg h]

theorem routerServeHTTP_of_lookup (a : app World) (redirects : router.Redirects)
    (sites : CallStacks) (w : ResponseWriter) (req : Request) (rt : Route) (ps : List Param)
    (hl : router.lookup a.routes req.Method req.Path = some (rt, ps)) :
    a.routerServeHTTP redirects sites (req.WithContext (a.requestStart w req).1)
        (a.requestStart w req).2 =
      rt.handler (a.requestStart w req).1
        (ps.foldl (fun st q => (a.requestStart w req).1.setParam q.Key q.Value st)
          (a.requestStart w req).2) := by
  have hd := router.dispatch_of_lookup redirects a.routes req.Method req.Path rt ps hl
  simp only [routerServeHTTP, Request.WithContext, hd]
  rfl

theorem routerServeHTTP_notFound (a : app World) (redirects : router.Redirects)
    (sites : CallStacks) (w : ResponseWriter) (req : Request)
    (hd : router.dispatch redirects a.routes req.Method req.Path = router.Decision.notFound) :
    a.routerServeHTTP redirects sites (req.WithContext (a.requestStart w req).1)
        (a.requestStart w req).2 =
      (a.requestStart w req).1.Error
        (GoError.app (errors.NewWithCode "not found" 404 sites.notFound))
        (a.requestStart w req).2 := by
  simp only [routerServeHTTP, Request.WithContext, hd]
  rfl

end app

namespace app

variable {World : Type}

/-- C5: whatever routes and catch-all handler an application has, a GET request
for `/version` on a response not yet started ends with status 200, the header
`content-type: application/json` in the header set of the response, and the
body with `version`, `BuildTime` and `showStacktrace` (true exactly when
`ShowStacktrace` is empty); `ServeHTTP` returns normally, and the outcome is the
same for every application with the same configuration and whatever the router
would do, so neither the catch-all handler nor the router takes part. -/
theorem version_endpoint (a : app World) (redirects : router.Redirects) (sites : CallStacks)
    (w : ResponseWriter) (req : Request) (hm : req.Method = "GET") (hp : req.Path = "/version")
    (hw : w.status = none) :
    (a.ServeHTTP redirects sites w req).2 = none ∧
    (a.ServeHTTP redirects sites w req).1.w.status = some 200 ∧
    ("content-type", "application/json") ∈ (a.ServeHTTP redirects sites w req).1.w.sent ∧
    (a.ServeHTTP redirects sites w req).1.w.body =
      w.body ++ [Body.json [("version", JsonValue.str a.config.Version),
                  ("BuildTime", JsonValue.str a.config.BuildTime),
                  ("showStacktrace", JsonValue.bool (decide (a.config.ShowStacktrace = "")))]] ∧
    (∀ (b : app World) (redirects2 : router.Redirects), b.config = a.config →
      b.ServeHTTP redirects2 sites w req = a.ServeHTTP redirects sites w req) := by
  have key : ∀ (b : app World) (rd : router.Redirects), b.ServeHTTP rd sites w req =
      ((b.requestStart w req).1.ResponseWithJSON
        (encodeVersionBody b.config.Version b.config.BuildTime
          (decide (b.config.ShowStacktrace = ""))) (b.requestStart w req).2, none) := by
    intro b rd
    rw [ServeHTTP_eq, serveBody_version b rd sites _ _ _ hm hp]
    rfl
  refine ⟨ServeHTTP_returns _ _ _ _ _, ?_, ?_, ?_, ?_⟩
  · rw [key]
    simp [requestContext.ResponseWithJSON, requestStart_snd, ResponseWriter.Write_status,
      ResponseWriter.HeaderAdd, hw]
  · rw [key]
    simp [requestContext.ResponseWithJSON, requestStart_snd, ResponseWriter.Write_sent,
      ResponseWriter.HeaderAdd, hw]
  · rw [key]
    simp [requestContext.ResponseWithJSON, requestStart_snd, ResponseWriter.Write_body,
      ResponseWriter.HeaderAdd, encodeVersionBody, hw, ResponseWriter.bodyAllowedForStatus]
  · intro b rd hb
    rw [key, key, hb]
    rfl

/-- C5 at a concrete input: an application with a panicking catch-all handler
still answers `GET /version` with status 200. -/
theorem version_endpoint_witness :
    (Example.appPanics.ServeHTTP Example.redirects Example.sites ResponseWriter.fresh
      { Method := "GET", Path := "/version" }).1.w.status = some 200 :=
  (version_endpoint Example.appPanics Example.redirects Example.sites ResponseWriter.fresh
    { Method := "GET", Path := "/version" } rfl rfl rfl).2.1

/-- C6 (amended): with no catch-all handler, a request other than
`GET /version` that matches no registered route and that the router does not
answer itself (it issues no redirect and has no other method to offer for the
path, so it sends no 405 and no OPTIONS reply), on a response not yet started,
ends with status 404 and a JSON error body whose message is "not found"; the
error is rendered through the context `ServeHTTP` attached to the request (no
other context is created), and `ServeHTTP` returns normally. -/
theorem not_found_response (a : app World) (redirects : router.Redirects) (sites : CallStacks)
    (w : ResponseWriter) (req : Request) (hnone : a.serveHTTPHandler = none)
    (hver : ¬ (req.Method = "GET" ∧ req.Path = "/version"))
    (hroute : ∀ r ∈ a.routes, r.method = req.Method → router.matchRoute r.route req.Path = none)
    (hredirect : redirects (a.routes.map (fun r => (r.method, r.route))) req.Method req.Path
      = none)
    (hallow : router.allowed a.routes req.Path req.Method = [])
    (hw : w.status = none) :
    (a.ServeHTTP redirects sites w req).2 = none ∧
    (a.ServeHTTP redirects sites w req).1.w.status = some 404 ∧
    (∃ d : Document, (a.ServeHTTP redirects sites w req).1.w.body = w.body ++ [Body.json d] ∧
      d.member "error" = some (JsonValue.str "error") ∧
      d.member "message" = some (JsonValue.str "not found")) ∧
    a.contextFromRequest (req.WithContext (a.requestStart w req).1) (a.requestStart w req).2 =
      a.requestStart w req ∧
    a.ServeHTTP redirects sites w req =
      (a.requestStart w req).1.Error
        (GoError.app (errors.NewWithCode "not found" 404 sites.notFound))
        (a.requestStart w req).2 := by
  have hl : router.lookup a.routes req.Method req.Path = none :=
    router.lookup_eq_none _ _ _ hroute
  have hd := router.dispatch_notFound redirects a.routes req.Method req.Path hl hredirect hallow
  have hcode : (100 : Int) ≤ requestContext.errorStatus
      (GoError.app (errors.NewWithCode "not found" 404 sites.notFound)) ∧
      requestContext.errorStatus
        (GoError.app (errors.NewWithCode "not found" 404 sites.notFound)) ≤ 999 := by
    show (100 : Int) ≤ 404 ∧ (404 : Int) ≤ 999; omega
  have hret := requestContext.Error_returns (a.requestStart w req).1
    (GoError.app (errors.NewWithCode "not found" 404 sites.notFound))
    (a.requestStart w req).2 hcode
  have key : a.ServeHTTP redirects sites w req =
      (a.requestStart w req).1.Error
        (GoError.app (errors.NewWithCode "not found" 404 sites.notFound))
        (a.requestStart w req).2 := by
    rw [ServeHTTP_eq, serveBody_other a redirects sites _ _ _ hver, hnone]
    simp only []
    rw [routerServeHTTP_notFound a redirects sites w req hd, recovered_of_return _ _ _ hret,
      ← hret]
  have hs : (a.requestStart w req).2.w.status = none := hw
  refine ⟨ServeHTTP_returns _ _ _ _ _, ?_, ?_, rfl, key⟩
  · rw [key]
    exact requestContext.Error_status_of_fresh _ _ _ hs (Or.inr (by
      show (200 : Int) ≤ 404 ∧ (404 : Int) ≤ 999; omega))
  · have hst := requestContext.Error_status_of_fresh (a.requestStart w req).1
      (GoError.app (errors.NewWithCode "not found" 404 sites.notFound))
      (a.requestStart w req).2 hs (Or.inr (by
        show (200 : Int) ≤ 404 ∧ (404 : Int) ≤ 999; omega))
    rw [key]
    exact ⟨_, requestContext.Error_body _ _ _ 404 hret hst (by decide),
      encodeErrorBody_error _ _, encodeErrorBody_message _ _⟩

/-- C6 at a concrete input: `GET /nothing` matches no route of `appUsers`, and
the router neither redirects it nor has a method to offer. -/
theorem not_found_response_witness :
    (Example.appUsers.ServeHTTP Example.redirects Example.sites ResponseWriter.fresh
      { Method := "GET", Path := "/nothing" }).1.w.status = some 404 :=
  (not_found_response Example.appUsers Example.redirects Example.sites ResponseWriter.fresh
    { Method := "GET", Path := "/nothing" } rfl (by decide) (by decide) rfl (by decide) rfl).2.1

/-- C6, as stated, fails.  `appUsers` has no catch-all handler and its only
route is registered for GET, so `POST /users/42` matches no registered route;
the router finds GET allowed for the path and answers by itself with status
405 and the text "Method Not Allowed", whatever its redirects are, and
`NotFound` is not called.  `GET /users/42/` matches no registered route
either; the router redirects it to `/users/42` with status 301. -/
theorem method_mismatch_not_404 :
    Example.appUsers.serveHTTPHandler.isNone = true ∧
    ((router.lookup Example.appUsers.routes "POST" "/users/42").isNone = true ∧
    (Example.appUsers.ServeHTTP Example.redirects Example.sites ResponseWriter.fresh
      { Method := "POST", Path := "/users/42" }).1.w.status = some 405 ∧
    (Example.appUsers.ServeHTTP Example.redirects Example.sites ResponseWriter.fresh
      { Method := "POST", Path := "/users/42" }).1.w.body =
        [Body.text "Method Not Allowed\n"] ∧
    (∀ redirects : router.Redirects,
      (Example.appUsers.ServeHTTP redirects Example.sites ResponseWriter.fresh
        { Method := "POST", Path := "/users/42" }).1.w.status = some 405)) ∧
    ((router.lookup Example.appUsers.routes "GET" "/users/42/").isNone = true ∧
    (Example.appUsers.ServeHTTP Example.redirects Example.sites ResponseWriter.fresh
      { Method := "GET", Path := "/users/42/" }).1.w.status = some 301 ∧
    ("Location", "/users/42") ∈
      (Example.appUsers.ServeHTTP Example.redirects Example.sites ResponseWriter.fresh
        { Method := "GET", Path := "/users/42/" }).1.w.sent) :=
  ⟨by decide, ⟨by decide, by decide, by decide, fun _ => rfl⟩, by decide⟩

/-- C8: for a request other than `GET /version`, an application with a
catch-all handler runs that handler on the context created for the request,
and the outcome does not depend on the registered routes nor on what the
router would do; an application without one hands the request to the router. -/
theorem catch_all_takes_priority (a : app World) (redirects : router.Redirects)
    (sites : CallStacks) (w : ResponseWriter) (req : Request)
    (hver : ¬ (req.Method = "GET" ∧ req.Path = "/version")) :
    (∀ fn : OnServeHTTPHandler,
      (a.OnServeHTTP fn).ServeHTTP redirects sites w req =
        recovered sites (a.requestStart w req).1
          (fn (a.requestStart w req).1 (a.requestStart w req).2)) ∧
    (∀ handler : OnServeHTTPHandler, a.serveHTTPHandler = some handler →
      a.ServeHTTP redirects sites w req =
        recovered sites (a.requestStart w req).1
          (handler (a.requestStart w req).1 (a.requestStart w req).2) ∧
      ∀ (routes : List Route) (redirects2 : router.Redirects),
        ({ a with routes := routes } : app World).ServeHTTP redirects2 sites w req =
          a.ServeHTTP redirects sites w req) ∧
    (a.serveHTTPHandler = none →
      a.ServeHTTP redirects sites w req =
        recovered sites (a.requestStart w req).1
          (a.routerServeHTTP redirects sites (req.WithContext (a.requestStart w req).1)
            (a.requestStart w req).2)) := by
  refine ⟨?_, ?_, ?_⟩
  · intro fn
    rw [ServeHTTP_eq, serveBody_other _ redirects sites _ _ _ hver]
    rfl
  · intro handler hh
    have h1 : ∀ (routes : List Route) (rd : router.Redirects),
        ({ a with routes := routes } : app World).ServeHTTP rd sites w req =
          recovered sites (a.requestStart w req).1
            (handler (a.requestStart w req).1 (a.requestStart w req).2) := by
      intro routes rd
      rw [ServeHTTP_eq, serveBody_other _ rd sites _ _ _ hver]
      simp only [hh]
      rfl
    have h2 := h1 a.routes redirects
    refine ⟨h2, fun routes rd => ?_⟩
    rw [h1 routes rd, ← h2]
  · intro hn
    rw [ServeHTTP_eq, serveBody_other _ redirects sites _ _ _ hver, hn]

/-- C8 at a concrete input: with the catch-all handler that panics at once
installed over the routes of `appUsers`, a matching request is answered by the
catch-all handler. -/
theorem catch_all_takes_priority_witness :
    ((Example.appUsers.OnServeHTTP Example.handlerPanic).ServeHTTP Example.redirects
      Example.sites ResponseWriter.fresh { Method := "GET", Path := "/users/42" }) =
      recovered Example.sites
        (Example.appUsers.requestStart ResponseWriter.fresh
          { Method := "GET", Path := "/users/42" }).1
        (Example.handlerPanic
          (Example.appUsers.requestStart ResponseWriter.fresh
            { Method := "GET", Path := "/users/42" }).1
          (Example.appUsers.requestStart ResponseWriter.fresh
            { Method := "GET", Path := "/users/42" }).2) :=
  (catch_all_takes_priority Example.appUsers Example.redirects Example.sites
    ResponseWriter.fresh { Method := "GET", Path := "/users/42" } (by decide)).1
    Example.handlerPanic

/-- C4 (amended): when a request handler, the catch-all handler or the handler
of the matching route, panics with a value `r` at any point of its execution,
`ServeHTTP` returns normally.  A JSON error body with the message
"Panic captured! " followed by the text of `r` is written after what the
handler wrote, unless the handler had started the response with a status that
allows no body (1xx, 204, 304), in which case nothing more is written.  The
response has status 500 when the handler had not started the response before
it panicked, and keeps the status it was started with otherwise. -/
theorem panic_recovered (a : app World) (redirects : router.Redirects) (sites : CallStacks)
    (w : ResponseWriter) (req : Request) (h : OnServeHTTPHandler) (s s1 : ReqState)
    (r : PanicValue)
    (hver : ¬ (req.Method = "GET" ∧ req.Path = "/version"))
    (hrun : (a.serveHTTPHandler = some h ∧ s = (a.requestStart w req).2) ∨
      (a.serveHTTPHandler = none ∧ ∃ (rt : Route) (ps : List Param),
        router.lookup a.routes req.Method req.Path = some (rt, ps) ∧ rt.handler = h ∧
        s = ps.foldl (fun st q => (a.requestStart w req).1.setParam q.Key q.Value st)
          (a.requestStart w req).2))
    (hpanic : h (a.requestStart w req).1 s = (s1, some r)) :
    (a.ServeHTTP redirects sites w req).2 = none ∧
    ((s1.w.status = none ∨
        ∃ c : Int, s1.w.status = some c ∧ ResponseWriter.bodyAllowedForStatus c = true) →
      ∃ d : Document,
        (a.ServeHTTP redirects sites w req).1.w.body = s1.w.body ++ [Body.json d] ∧
        d.member "error" = some (JsonValue.str "error") ∧
        d.member "message" = some (JsonValue.str ("Panic captured! " ++ r.text))) ∧
    (∀ c : Int, s1.w.status = some c → ResponseWriter.bodyAllowedForStatus c = false →
      (a.ServeHTTP redirects sites w req).1.w.body = s1.w.body) ∧
    (s1.w.status = none → (a.ServeHTTP redirects sites w req).1.w.status = some 500) ∧
    (∀ c : Int, s1.w.status = some c →
      (a.ServeHTTP redirects sites w req).1.w.status = some c) := by
  have key : a.ServeHTTP redirects sites w req =
      (a.requestStart w req).1.Error (GoError.app
        (errors.NewWithCode ("Panic captured! " ++ r.text) 500 sites.recovered)) s1 := by
    rw [ServeHTTP_eq, serveBody_other a redirects sites _ _ _ hver]
    rcases hrun with ⟨hh, hs⟩ | ⟨hn, rt, ps, hl, hrt, hs⟩
    · subst hs
      simp only [hh]
      rw [hpanic, recovered_of_panic]
    · simp only [hn]
      rw [routerServeHTTP_of_lookup a redirects sites w req rt ps hl, hrt, ← hs, hpanic,
        recovered_of_panic]
  have hcode : (100 : Int) ≤ requestContext.errorStatus (GoError.app
      (errors.NewWithCode ("Panic captured! " ++ r.text) 500 sites.recovered)) ∧
      requestContext.errorStatus (GoError.app
        (errors.NewWithCode ("Panic captured! " ++ r.text) 500 sites.recovered)) ≤ 999 := by
    show (100 : Int) ≤ 500 ∧ (500 : Int) ≤ 999; omega
  have hret := requestContext.Error_returns (a.requestStart w req).1 (GoError.app
    (errors.NewWithCode ("Panic captured! " ++ r.text) 500 sites.recovered)) s1 hcode
  have hfresh : s1.w.status = none →
      ((a.requestStart w req).1.Error (GoError.app
        (errors.NewWithCode ("Panic captured! " ++ r.text) 500 sites.recovered)) s1).1.w.status
        = some 500 := fun hs1 =>
    requestContext.Error_status_of_fresh _ _ _ hs1 (Or.inr (by
      show (200 : Int) ≤ 500 ∧ (500 : Int) ≤ 999; omega))
  refine ⟨ServeHTTP_returns _ _ _ _ _, ?_, ?_, ?_, ?_⟩
  · intro hs1
    rw [key]
    rcases hs1 with hs1 | ⟨c, hs1, ha⟩
    · exact ⟨_, requestContext.Error_body _ _ _ 500 hret (hfresh hs1) (by decide),
        encodeErrorBody_error _ _, encodeErrorBody_message _ _⟩
    · exact ⟨_, requestContext.Error_body _ _ _ _ hret
        (requestContext.Error_status_of_started _ _ _ c hs1) ha,
        encodeErrorBody_error _ _, encodeErrorBody_message _ _⟩
  · intro c hs1 ha
    rw [key]
    exact requestContext.Error_no_body _ _ _ _ hret
      (requestContext.Error_status_of_started _ _ _ c hs1) ha
  · intro hs1
    rw [key]
    exact hfresh hs1
  · intro c hs1
    rw [key]
    exact requestContext.Error_status_of_started _ _ _ c hs1

/-- C4 at a concrete input: a catch-all handler that panics with "boom" before
writing anything. -/
theorem panic_recovered_witness :
    (Example.appPanicsAtOnce.ServeHTTP Example.redirects Example.sites ResponseWriter.fresh
      { Method := "GET", Path := "/p" }).2 = none ∧
    (∃ d : Document,
      (Example.appPanicsAtOnce.ServeHTTP Example.redirects Example.sites ResponseWriter.fresh
        { Method := "GET", Path := "/p" }).1.w.body =
          (Example.appPanicsAtOnce.requestStart ResponseWriter.fresh
            { Method := "GET", Path := "/p" }).2.w.body ++ [Body.json d] ∧
      d.member "error" = some (JsonValue.str "error") ∧
      d.member "message" = some (JsonValue.str ("Panic captured! " ++ "boom"))) ∧
    (Example.appPanicsAtOnce.ServeHTTP Example.redirects Example.sites ResponseWriter.fresh
      { Method := "GET", Path := "/p" }).1.w.status = some 500 :=
  have h := panic_recovered Example.appPanicsAtOnce Example.redirects Example.sites
    ResponseWriter.fresh { Method := "GET", Path := "/p" } Example.handlerPanic
    (Example.appPanicsAtOnce.requestStart ResponseWriter.fresh { Method := "GET", Path := "/p" }).2
    (Example.appPanicsAtOnce.requestStart ResponseWriter.fresh { Method := "GET", Path := "/p" }).2
    { text := "boom" } (by decide) (Or.inl ⟨rfl, rfl⟩) rfl
  ⟨h.1, h.2.1 (Or.inl rfl), h.2.2.2.1 rfl⟩

/-- C4, as stated, fails.  The catch-all handler of `appPanics` writes a JSON
response and then panics; `ServeHTTP` returns normally and appends the error
body, but the response keeps the status 200 it was started with.  The
catch-all handler of `appNoContent` starts the response with status 204 and
then panics; the response keeps status 204 and, as that status allows no
body, no error body is written. -/
theorem panic_after_write_keeps_status :
    ((Example.handlerWriteThenPanic
      (Example.appPanics.requestStart ResponseWriter.fresh { Method := "GET", Path := "/p" }).1
      (Example.appPanics.requestStart ResponseWriter.fresh { Method := "GET", Path := "/p" }).2).2
      = some { text := "boom" } ∧
    (Example.appPanics.ServeHTTP Example.redirects Example.sites ResponseWriter.fresh
      { Method := "GET", Path := "/p" }).1.w.status = some 200 ∧
    (Example.appPanics.ServeHTTP Example.redirects Example.sites ResponseWriter.fresh
      { Method := "GET", Path := "/p" }).1.w.status ≠ some 500 ∧
    (Example.appPanics.ServeHTTP Example.redirects Example.sites ResponseWriter.fresh
      { Method := "GET", Path := "/p" }).1.w.body =
        [Body.json [("ok", JsonValue.bool true)],
         Body.json [("error", JsonValue.str "error"),
           ("message", JsonValue.str "Panic captured! boom")]]) ∧
    ((Example.handlerNoContentThenPanic
      (Example.appNoContent.requestStart ResponseWriter.fresh
        { Method := "GET", Path := "/p" }).1
      (Example.appNoContent.requestStart ResponseWriter.fresh
        { Method := "GET", Path := "/p" }).2).2 = some { text := "boom" } ∧
    (Example.appNoContent.ServeHTTP Example.redirects Example.sites ResponseWriter.fresh
      { Method := "GET", Path := "/p" }).1.w.status = some 204 ∧
    (Example.appNoContent.ServeHTTP Example.redirects Example.sites ResponseWriter.fresh
      { Method := "GET", Path := "/p" }).1.w.body = []) := by
  decide

/-- C7 (amended): with no catch-all handler, a request other than
`GET /version` for which the router selects a route with bindings `ps` runs the
route handler on the context `ServeHTTP` created, in a state where the writer is
untouched and the context's `Params()` holds, for every name, the value of the
last binding of that name and no entry for a name that is not bound; when the
bound names are pairwise distinct, the mapping holds exactly the bindings. -/
theorem route_params_bound (a : app World) (redirects : router.Redirects) (sites : CallStacks)
    (w : ResponseWriter) (req : Request) (rt : Route) (ps : List Param)
    (hnone : a.serveHTTPHandler = none)
    (hver : ¬ (req.Method = "GET" ∧ req.Path = "/version"))
    (hl : router.lookup a.routes req.Method req.Path = some (rt, ps)) :
    ∃ s : ReqState,
      a.ServeHTTP redirects sites w req =
        recovered sites (a.requestStart w req).1 (rt.handler (a.requestStart w req).1 s) ∧
      s.w = w ∧
      (∀ k : String, ((a.requestStart w req).1.Params s).get k =
        ((ps.filter (fun p => decide (p.Key = k))).getLast?).map Param.Value) ∧
      (∀ k : String, ((a.requestStart w req).1.Params s).get k = none ↔
        ∀ p ∈ ps, p.Key ≠ k) ∧
      ((ps.map Param.Key).Nodup → ∀ k v : String,
        ((a.requestStart w req).1.Params s).get k = some v ↔
          ({ Key := k, Value := v } : Param) ∈ ps) := by
  have hlt : (a.requestStart w req).1.ptr < (a.requestStart w req).2.params.length := by
    simp [requestStart_fst, requestStart_snd]
  obtain ⟨hw, hp⟩ := requestContext.foldl_setParam (a.requestStart w req).1 ps
    (a.requestStart w req).2 hlt
  have hget : ∀ k : String, ((a.requestStart w req).1.Params
      (ps.foldl (fun st q => (a.requestStart w req).1.setParam q.Key q.Value st)
        (a.requestStart w req).2)).get k =
        ((ps.filter (fun p => decide (p.Key = k))).getLast?).map Param.Value := by
    intro k
    rw [hp, GoMap.get_foldl_set]
    have : ((a.requestStart w req).1.Params (a.requestStart w req).2).get k = none := rfl
    rw [this]
    simp
  refine ⟨_, ?_, hw, hget, ?_, ?_⟩
  · rw [ServeHTTP_eq, serveBody_other a redirects sites _ _ _ hver, hnone]
    simp only []
    rw [routerServeHTTP_of_lookup a redirects sites w req rt ps hl]
  · intro k
    rw [hget k]
    simp [List.filter_eq_nil_iff]
  · intro hnd k v
    rw [hget k]
    constructor
    · intro hv
      rcases Option.map_eq_some'.1 hv with ⟨p, hp1, hp2⟩
      have hmem : p ∈ ps.filter (fun p => decide (p.Key = k)) := List.mem_of_mem_getLast? hp1
      rw [List.mem_filter] at hmem
      have hk : p.Key = k := by simpa using hmem.2
      have : p = ({ Key := k, Value := v } : Param) := by
        cases p; simp_all
      exact this ▸ hmem.1
    · intro hmem
      have hne : ps.filter (fun p => decide (p.Key = k)) ≠ [] := by
        intro h0
        have := List.filter_eq_nil_iff.1 h0 _ hmem
        simp at this
      obtain ⟨q, hq⟩ := Option.isSome_iff_exists.1 (List.getLast?_isSome.2 hne)
      have hqm : q ∈ ps.filter (fun p => decide (p.Key = k)) := List.mem_of_mem_getLast? hq
      rw [List.mem_filter] at hqm
      have hk : q.Key = k := by simpa using hqm.2
      have hinj := List.inj_on_of_nodup_map hnd hqm.1 hmem (by simpa using hk)
      rw [hq, hinj]
      rfl

/-- C7 at a concrete input: the route `/users/:a` and the request
`GET /users/42`. -/
theorem route_params_bound_witness :
    ∃ s : ReqState,
      Example.appUsers.ServeHTTP Example.redirects Example.sites ResponseWriter.fresh
          { Method := "GET", Path := "/users/42" } =
        recovered Example.sites
          (Example.appUsers.requestStart ResponseWriter.fresh
            { Method := "GET", Path := "/users/42" }).1
          (Example.handlerEcho
            (Example.appUsers.requestStart ResponseWriter.fresh
              { Method := "GET", Path := "/users/42" }).1 s) ∧
      ((Example.appUsers.requestStart ResponseWriter.fresh
        { Method := "GET", Path := "/users/42" }).1.Params s).get "a" = some "42" := by
  obtain ⟨s, h1, _, _, _, h5⟩ := route_params_bound Example.appUsers Example.redirects
    Example.sites ResponseWriter.fresh { Method := "GET", Path := "/users/42" }
    { method := "GET", route := "/users/:a", handler := Example.handlerEcho }
    [{ Key := "a", Value := "42" }] rfl (by decide) rfl
  exact ⟨s, h1, (h5 (by decide) "a" "42").2 (by decide)⟩

/-- C7, as stated, fails in three ways.  For the route `/:a/:a` and the request
`GET /1/2` the router binds `a` to "1" and to "2"; the handler runs with a
mapping that holds "2" for `a`, and the binding of `a` to "1" is not in it.
For the route `/:a` the request `GET /version` matches with `a` bound to
"version", but `ServeHTTP` answers with the version document and the route
handler does not run.  With a catch-all handler installed over the route
`/users/:a`, the matching request `GET /users/42` goes to the catch-all
handler (here one that panics) and the route handler does not run. -/
theorem route_params_repeated_name :
    ((router.lookup Example.appTwice.routes "GET" "/1/2").map Prod.snd =
      some [{ Key := "a", Value := "1" }, { Key := "a", Value := "2" }] ∧
    (Example.appTwice.ServeHTTP Example.redirects Example.sites ResponseWriter.fresh
      { Method := "GET", Path := "/1/2" }).1.params = [{ entries := [("a", "2")] }] ∧
    (Example.appTwice.ServeHTTP Example.redirects Example.sites ResponseWriter.fresh
      { Method := "GET", Path := "/1/2" }).1.w.body = [Body.json [("a", JsonValue.str "2")]]) ∧
    ((router.lookup Example.appAny.routes "GET" "/version").map Prod.snd =
      some [{ Key := "a", Value := "version" }] ∧
    (Example.appAny.ServeHTTP Example.redirects Example.sites ResponseWriter.fresh
      { Method := "GET", Path := "/version" }).1.params = [{ entries := [] }] ∧
    (Example.appAny.ServeHTTP Example.redirects Example.sites ResponseWriter.fresh
      { Method := "GET", Path := "/version" }).1.w.body =
        [Body.json [("version", JsonValue.str "1.0"), ("BuildTime", JsonValue.str "today"),
          ("showStacktrace", JsonValue.bool false)]]) ∧
    (((router.lookup (Example.appUsers.OnServeHTTP Example.handlerPanic).routes "GET"
        "/users/42").map Prod.snd = some [{ Key := "a", Value := "42" }]) ∧
    ((Example.appUsers.OnServeHTTP Example.handlerPanic).ServeHTTP Example.redirects
      Example.sites ResponseWriter.fresh { Method := "GET", Path := "/users/42" }).1.params =
        [{ entries := [] }] ∧
    ((Example.appUsers.OnServeHTTP Example.handlerPanic).ServeHTTP Example.redirects
      Example.sites ResponseWriter.fresh { Method := "GET", Path := "/users/42" }).1.w.body =
        [Body.json [("error", JsonValue.str "error"),
          ("message", JsonValue.str "Panic captured! boom")]]) := by
  decide

end app

end Neversorrow
